import Mathlib

/-!
# Tooltip lifecycle and placement engine (`src/js/tooltip.js`)

A shallow embedding of the tooltip script.  JavaScript numbers are the IEEE-754 doubles,
taken as rationals (no NaN, no overflow to infinity): a value read from the browser is
rounded to the nearest double by `toDouble`, and so is the result of every arithmetic
operation of `computeCoords`, of the clamp and of the scroll offset; the fit test and the
overlap area compare the rectangles so obtained.  `Math.round` is `⌊x + 1/2⌋`, DOM elements are a
tag name with an ordered attribute list, and the module-level mutable variables
(`tooltip`, `currentTrigger`, the animation-frame queue) as one explicit `State` record
threaded through every operation.  Layout values the script reads from the browser
(bounding rectangles, client size, scroll offset) are an explicit `Layout` argument, and
the tree the DOM methods `closest`, `contains` and `querySelectorAll` walk is an explicit
`Document` argument.
-/

namespace Tooltip

/-! ## Constants (lines 2-4) -/

def TOOLTIP_ATTR : String := "data-tooltip"
def PLACEMENT_ATTR : String := "data-placement"
def DEFAULT_PLACEMENT : String := "top"

/-! ## JavaScript primitives -/

/-- Truthiness of a value that is a string, `null` or `undefined`:
only a non-empty string is truthy. -/
def truthy : Option String → Bool
  | some v => v != ""
  | none => false

/-- The expression `a || d` for `a` a string, `null` or `undefined` and `d` a string. -/
def orElse (a : Option String) (d : String) : String :=
  match a with
  | some v => if v = "" then d else v
  | none => d

/-- `Math.round`: nearest integer, halves rounded towards plus infinity. -/
def mathRound (x : ℚ) : ℤ := ⌊x + 1 / 2⌋

/-- Rounding to the nearest integer, halves to the even neighbour. -/
def roundHalfEven (x : ℚ) : ℤ :=
  if x - ⌊x⌋ < 1 / 2 then ⌊x⌋
  else if 1 / 2 < x - ⌊x⌋ then ⌊x⌋ + 1
  else if ⌊x⌋ % 2 = 0 then ⌊x⌋ else ⌊x⌋ + 1

/-- The number of binary digits of `n`, by halving (`fuel` bounds the number of steps;
`n` itself is always enough). -/
def bitLength : ℕ → ℕ → ℕ
  | 0, _ => 0
  | fuel + 1, n => if n = 0 then 0 else bitLength fuel (n / 2) + 1

/-- The binary exponent of a positive `x`: the `e` with `2^e <= x < 2^(e+1)`, found from
the bit lengths of numerator and denominator. -/
def binade (x : ℚ) : ℤ :=
  if (2 : ℚ) ^ ((bitLength x.num.natAbs x.num.natAbs : ℤ) - (bitLength x.den x.den : ℤ)) ≤ x then
    (bitLength x.num.natAbs x.num.natAbs : ℤ) - (bitLength x.den x.den : ℤ)
  else (bitLength x.num.natAbs x.num.natAbs : ℤ) - (bitLength x.den x.den : ℤ) - 1

/-- The exponent of the unit in the last place of a double of magnitude `x`: 53
significant bits, and `2^-1074` throughout the subnormal range. -/
def ulpExp (x : ℚ) : ℤ := max (binade x - 52) (-1074)

/-- The double nearest to a non-negative `x` (round to nearest, ties to even). -/
def toDoubleMag (x : ℚ) : ℚ := roundHalfEven (x / 2 ^ ulpExp x) * 2 ^ ulpExp x

/-- The IEEE-754 double nearest to `x` (round to nearest, ties to even), as a rational. -/
def toDouble (x : ℚ) : ℚ := if 0 ≤ x then toDoubleMag x else -toDoubleMag (-x)

/-- A JavaScript number read from the browser: a rational that is not a double stands for
the nearest double, as a numeric literal does. -/
def num (x : ℚ) : ℚ := toDouble x

/-- The operator `a + b` on doubles. -/
def dadd (a b : ℚ) : ℚ := toDouble (a + b)

/-- The operator `a - b` on doubles. -/
def dsub (a b : ℚ) : ℚ := toDouble (a - b)

/-- The operator `a / b` on doubles. -/
def ddiv (a b : ℚ) : ℚ := toDouble (a / b)

/-- A bound on the rounding error that up to three double operations accumulate on
operands of total magnitude `m`: `2^-51 * m + 2^-1072`. -/
def roundingSlack (m : ℚ) : ℚ := 2 ^ (-51 : ℤ) * m + 2 ^ (-1072 : ℤ)

/-! ## Geometry read from the browser -/

/-- A `DOMRect` as returned by `getBoundingClientRect()`. -/
structure DOMRect where
  left : ℚ
  top : ℚ
  width : ℚ
  height : ℚ
  deriving DecidableEq

/-- `rect.right` of a `DOMRect`: the double `x + width`. -/
def DOMRect.right (r : DOMRect) : ℚ := dadd (num r.left) (num r.width)

/-- `rect.bottom` of a `DOMRect`: the double `y + height`. -/
def DOMRect.bottom (r : DOMRect) : ℚ := dadd (num r.top) (num r.height)

/-- The `viewport` object of line 64. -/
structure Viewport where
  width : ℚ
  height : ℚ
  deriving DecidableEq

/-- Everything one positioning pass reads from the browser: the active trigger's
bounding rectangle, the tooltip's measured rectangle, the document element's client
size and the window scroll offset. -/
structure Layout where
  rect : DOMRect
  ttRect : DOMRect
  clientWidth : ℤ
  clientHeight : ℤ
  scrollX : ℚ
  scrollY : ℚ
  deriving DecidableEq

/-- The `viewport` a pass builds from the layout (line 64). -/
def Layout.viewport (g : Layout) : Viewport :=
  { width := g.clientWidth, height := g.clientHeight }

/-- The record `{ left, top, w, h }` returned by `computeCoords`. -/
structure Coords where
  left : ℤ
  top : ℤ
  w : ℚ
  h : ℚ
  deriving DecidableEq

/-! ## The placement engine (lines 63-115) -/

/-- The constant `gap` of line 63. -/
def gap : ℚ := 8

/-- The constant `pad` of line 113. -/
def pad : ℚ := 6

/-- The function `computeCoords` (lines 68-90), in double arithmetic; any placement other
than `top`, `bottom` and `left` takes the `right`/`default` branch. -/
def computeCoords (rect ttRect : DOMRect) (placement : String) : Coords :=
  if placement = "top" then
    { left := mathRound
        (dadd (num rect.left) (ddiv (dsub (num rect.width) (num ttRect.width)) 2))
      top := mathRound (dsub (dsub (num rect.top) (num ttRect.height)) gap)
      w := num ttRect.width, h := num ttRect.height }
  else if placement = "bottom" then
    { left := mathRound
        (dadd (num rect.left) (ddiv (dsub (num rect.width) (num ttRect.width)) 2))
      top := mathRound (dadd rect.bottom gap)
      w := num ttRect.width, h := num ttRect.height }
  else if placement = "left" then
    { left := mathRound (dsub (dsub (num rect.left) (num ttRect.width)) gap)
      top := mathRound
        (dadd (num rect.top) (ddiv (dsub (num rect.height) (num ttRect.height)) 2))
      w := num ttRect.width, h := num ttRect.height }
  else
    { left := mathRound (dadd rect.right gap)
      top := mathRound
        (dadd (num rect.top) (ddiv (dsub (num rect.height) (num ttRect.height)) 2))
      w := num ttRect.width, h := num ttRect.height }

/-- The candidate list of line 66: `[preferred, top, right, bottom, left]` filtered with
`(v, i, a) => a.indexOf(v) === i`. -/
def candidates (preferred : String) : List String :=
  let a := [preferred, "top", "right", "bottom", "left"]
  (a.enum.filter (fun iv => a.indexOf iv.2 == iv.1)).map Prod.snd

/-- The predicate of the `find` callback (line 94): the whole rectangle lies in the
viewport. -/
def fits (c : Coords) (viewport : Viewport) : Bool :=
  decide ((c.left : ℚ) ≥ 0) && decide ((c.top : ℚ) ≥ 0) &&
    decide ((c.left : ℚ) + c.w ≤ viewport.width) &&
    decide ((c.top : ℚ) + c.h ≤ viewport.height)

/-- The `area` of lines 101-105: the part of the rectangle inside the viewport. -/
def clippedArea (c : Coords) (viewport : Viewport) : ℚ :=
  let x1 := max 0 (c.left : ℚ)
  let y1 := max 0 (c.top : ℚ)
  let x2 := min viewport.width ((c.left : ℚ) + c.w)
  let y2 := min viewport.height ((c.top : ℚ) + c.h)
  max 0 (x2 - x1) * max 0 (y2 - y1)

/-- The record `best` of the fallback loop. -/
structure Best where
  area : ℚ
  place : String
  deriving DecidableEq

/-- One iteration of the `forEach` body (lines 100-106). -/
def bestStep (rect ttRect : DOMRect) (viewport : Viewport) (best : Best) (p : String) : Best :=
  let area := clippedArea (computeCoords rect ttRect p) viewport
  if area > best.area then { area := area, place := p } else best

/-- The fallback of lines 98-108: the loop over all candidates, started from
`{ area: -1, place: candidates[0] }` (the candidate list is never empty; `headD` only
supplies a value for the empty list). -/
def bestOverlap (rect ttRect : DOMRect) (viewport : Viewport) (cands : List String) : Best :=
  cands.foldl (bestStep rect ttRect viewport) { area := -1, place := cands.headD "" }

/-- The value of `chosen` at line 111: the first candidate that fits (lines 92-95), or,
when `!chosen` holds (`find` gave `undefined`, or a falsy string), the place of the best
overlap (lines 97-109). -/
def choosePlacement (g : Layout) (preferred : String) : String :=
  let cands := candidates preferred
  let found := cands.find? (fun p => fits (computeCoords g.rect g.ttRect p) g.viewport)
  if truthy found then orElse found "" else (bestOverlap g.rect g.ttRect g.viewport cands).place

/-- The clamp of lines 114-115, on one axis:
`Math.min(Math.max(pos, pad), extent - size - pad)`, the upper bound being the double
`(extent - size) - pad`. -/
def clampAxis (pos : ℤ) (size extent : ℚ) : ℚ :=
  min (max (pos : ℚ) pad) (dsub (dsub extent size) pad)

/-- The viewport-relative `left` of line 114 for the chosen placement. -/
def finalLeft (g : Layout) (chosen : String) : ℚ :=
  let final := computeCoords g.rect g.ttRect chosen
  clampAxis final.left final.w g.viewport.width

/-- The viewport-relative `top` of line 115 for the chosen placement. -/
def finalTop (g : Layout) (chosen : String) : ℚ :=
  let final := computeCoords g.rect g.ttRect chosen
  clampAxis final.top final.h g.viewport.height

/-! ## The document and the module state (lines 6-13) -/

/-- A DOM element: its tag name and its attributes in document order. -/
structure Element where
  tagName : String
  attrs : List (String × String)
  deriving DecidableEq

/-- The method `el.getAttribute(name)`; `none` stands for `null`. -/
def Element.getAttribute (el : Element) (name : String) : Option String :=
  el.attrs.lookup name

/-- The method `el.hasAttribute(name)`. -/
def Element.hasAttribute (el : Element) (name : String) : Bool :=
  (el.getAttribute name).isSome

/-- The method `el.setAttribute(name, value)`: overwrite in place, or append. -/
def Element.setAttribute (el : Element) (name value : String) : Element :=
  if el.hasAttribute name then
    { el with attrs := el.attrs.map (fun kv => if kv.1 = name then (name, value) else kv) }
  else
    { el with attrs := el.attrs ++ [(name, value)] }

/-- The method `el.removeAttribute(name)`. -/
def Element.removeAttribute (el : Element) (name : String) : Element :=
  { el with attrs := el.attrs.filter (fun kv => kv.1 != name) }

/-- Elements are referred to by identity. -/
abbrev ElemId := Nat

/-- A value handed to an operation: an element of the document, or anything that fails
`instanceof Element` (a text node, the document, `null`). -/
inductive Node where
  | element (id : ElemId)
  | other
  deriving DecidableEq

/-- The shared tooltip element created at lines 6-11: the properties the script touches. -/
structure Surface where
  id : String
  textContent : String
  datasetPlacement : Option String
  datasetState : Option String
  ariaHidden : String
  styleLeft : Option ℚ
  styleTop : Option ℚ
  styleVisibility : String
  styleDisplay : String
  deriving DecidableEq

/-- A callback handed to `requestAnimationFrame`; the script only ever queues
`positionTooltip`. -/
inductive FrameCallback where
  | positionTooltip
  deriving DecidableEq

/-- The mutable state of the module: the document's elements, the tooltip surface, the
variable `currentTrigger` and the callbacks waiting for the next animation frame. -/
structure State where
  dom : ElemId → Element
  tooltip : Surface
  currentTrigger : Option ElemId
  frames : List FrameCallback

/-- The state after lines 6-13 have run on a document `dom`, with `id` the generated
tooltip id: hidden surface, no active trigger, nothing scheduled. -/
def init (dom : ElemId → Element) (id : String) : State :=
  { dom := dom
    tooltip :=
      { id := id, textContent := "", datasetPlacement := none, datasetState := none
        ariaHidden := "true", styleLeft := none, styleTop := none
        styleVisibility := "", styleDisplay := "" }
    currentTrigger := none
    frames := [] }

/-- The call `requestAnimationFrame(cb)`: the callback joins the queue. -/
def requestAnimationFrame (cb : FrameCallback) (s : State) : State :=
  { s with frames := s.frames ++ [cb] }

/-! ## Lifecycle operations (lines 28-51) -/

/-- The function `hideTooltip` (lines 45-51). -/
def hideTooltip (s : State) : State :=
  match s.currentTrigger with
  | none => s
  | some t =>
    { s with
      tooltip := { s.tooltip with datasetState := some "hidden", ariaHidden := "true" }
      dom := Function.update s.dom t ((s.dom t).removeAttribute "aria-describedby")
      currentTrigger := none }

/-- The function `showTooltipFor` (lines 28-43).  Past the guard `if (!text) return`
the value `text` is a non-empty string, so `orElse text ""` is that string. -/
def showTooltipFor (n : Node) (s : State) : State :=
  match n with
  | .other => s
  | .element el =>
    let text := (s.dom el).getAttribute TOOLTIP_ATTR
    if !truthy text then s
    else
      let s1 := if s.currentTrigger.isSome && s.currentTrigger != some el then hideTooltip s else s
      let s2 : State :=
        { s1 with
          currentTrigger := some el
          tooltip :=
            { s1.tooltip with
              textContent := orElse text ""
              datasetPlacement :=
                some (orElse ((s1.dom el).getAttribute PLACEMENT_ATTR) DEFAULT_PLACEMENT)
              datasetState := some "visible"
              ariaHidden := "false" }
          dom := Function.update s1.dom el
            ((s1.dom el).setAttribute "aria-describedby" s1.tooltip.id) }
      requestAnimationFrame .positionTooltip s2

/-- The preferred placement read at line 65: `tooltip.dataset.placement || DEFAULT_PLACEMENT`. -/
def preferredOf (t : Surface) : String :=
  orElse t.datasetPlacement DEFAULT_PLACEMENT

/-- The function `positionTooltip` (lines 53-120), given the layout it measures. -/
def positionTooltip (g : Layout) (s : State) : State :=
  match s.currentTrigger with
  | none => s
  | some _ =>
    let prevVisibility := s.tooltip.styleVisibility
    let t1 : Surface :=
      { s.tooltip with
        styleLeft := some 0, styleTop := some 0
        styleVisibility := "hidden", styleDisplay := "inline-block" }
    let preferred := preferredOf t1
    let chosen := choosePlacement g preferred
    let left := finalLeft g chosen
    let top := finalTop g chosen
    { s with
      tooltip :=
        { t1 with
          datasetPlacement := some chosen
          styleLeft := some (dadd left (num g.scrollX))
          styleTop := some (dadd top (num g.scrollY))
          styleVisibility := prevVisibility } }

/-! ## Sequences of operations -/

/-- One call made on the module. -/
inductive Op where
  | showTooltipFor (n : Node)
  | hideTooltip
  | positionTooltip (g : Layout)

/-- The effect of one call. -/
def step (s : State) : Op → State
  | .showTooltipFor n => showTooltipFor n s
  | .hideTooltip => hideTooltip s
  | .positionTooltip g => positionTooltip g s

/-- The effect of a sequence of calls, in order. -/
def run (ops : List Op) (s : State) : State :=
  ops.foldl step s

/-- The tooltip is visible: `aria-hidden` is `"false"`. -/
def State.visible (s : State) : Prop :=
  s.tooltip.ariaHidden = "false"

/-- Element `e` carries the accessible association: its `aria-describedby` is the
tooltip's id. -/
def State.describedBy (s : State) (e : ElemId) : Prop :=
  (s.dom e).getAttribute "aria-describedby" = some s.tooltip.id

instance (s : State) : Decidable s.visible :=
  inferInstanceAs (Decidable (s.tooltip.ariaHidden = "false"))

instance (s : State) (e : ElemId) : Decidable (s.describedBy e) :=
  inferInstanceAs (Decidable ((s.dom e).getAttribute "aria-describedby" = some s.tooltip.id))

/-- The placement names the engine knows. -/
def placementNames : List String := ["top", "right", "bottom", "left"]

/-- A rectangle lies within `[0, viewport.width] x [0, viewport.height]`. -/
def inViewport (c : Coords) (viewport : Viewport) : Prop :=
  0 ≤ (c.left : ℚ) ∧ 0 ≤ (c.top : ℚ) ∧
    (c.left : ℚ) + c.w ≤ viewport.width ∧ (c.top : ℚ) + c.h ≤ viewport.height

instance (c : Coords) (viewport : Viewport) : Decidable (inViewport c viewport) :=
  inferInstanceAs (Decidable (_ ∧ _ ∧ _ ∧ _))

/-- The rectangle a pass with layout `g` computes for placement `p`. -/
def Layout.coords (g : Layout) (p : String) : Coords :=
  computeCoords g.rect g.ttRect p

/-- The clipped area a pass with layout `g` computes for placement `p`. -/
def Layout.area (g : Layout) (p : String) : ℚ :=
  clippedArea (computeCoords g.rect g.ttRect p) g.viewport

/-- The point `(x, y)` lies in the rectangle `c`. -/
def Coords.covers (c : Coords) (x y : ℚ) : Prop :=
  (c.left : ℚ) ≤ x ∧ x ≤ (c.left : ℚ) + c.w ∧ (c.top : ℚ) ≤ y ∧ y ≤ (c.top : ℚ) + c.h

/-- The point `(x, y)` lies in the viewport. -/
def Viewport.covers (v : Viewport) (x y : ℚ) : Prop :=
  0 ≤ x ∧ x ≤ v.width ∧ 0 ≤ y ∧ y ≤ v.height

/-- The area of the part of the rectangle `c` that is visible in the viewport: the points
of `c` inside the viewport form the box from `(max left 0, max top 0)` to
`(min right width, min bottom height)`; the visible area is the area of that box, and 0
when the box is empty. -/
def visibleArea (c : Coords) (v : Viewport) : ℚ :=
  if max (c.left : ℚ) 0 ≤ min ((c.left : ℚ) + c.w) v.width ∧
      max (c.top : ℚ) 0 ≤ min ((c.top : ℚ) + c.h) v.height then
    (min ((c.left : ℚ) + c.w) v.width - max (c.left : ℚ) 0)
      * (min ((c.top : ℚ) + c.h) v.height - max (c.top : ℚ) 0)
  else 0

/-! ## Example documents and layouts -/

/-- A document with three triggers: element 0 has a description only, element 1 prefers
`bottom`, element 2 asks for a placement the engine does not know; the rest are plain
`div`s. -/
def exampleDom : ElemId → Element := fun i =>
  if i = 0 then { tagName := "span", attrs := [("data-tooltip", "Save file")] }
  else if i = 1 then
    { tagName := "span", attrs := [("data-tooltip", "Open file"), ("data-placement", "bottom")] }
  else if i = 2 then
    { tagName := "span", attrs := [("data-tooltip", "Close"), ("data-placement", "diagonal")] }
  else { tagName := "div", attrs := [] }

/-- The state after start-up on `exampleDom`. -/
def exampleInit : State := init exampleDom "tooltip-k3x9q2a"

/-- The state after the pointer entered element 0 of `exampleDom`. -/
def exampleVisible : State := showTooltipFor (.element 0) exampleInit

/-- A 40 x 40 trigger in the top-left corner of an 800 x 600 viewport, tooltip 100 x 30:
`top` sticks out above, `right` fits. -/
def cornerLayout : Layout :=
  { rect := { left := 0, top := 0, width := 40, height := 40 }
    ttRect := { left := 0, top := 0, width := 100, height := 30 }
    clientWidth := 800, clientHeight := 600, scrollX := 0, scrollY := 0 }

/-- A 40 x 20 trigger in the middle of an 800 x 600 viewport, tooltip 100 x 30: every
placement fits. -/
def roomyLayout : Layout :=
  { rect := { left := 300, top := 300, width := 40, height := 20 }
    ttRect := { left := 0, top := 0, width := 100, height := 30 }
    clientWidth := 800, clientHeight := 600, scrollX := 0, scrollY := 0 }

/-- A 40 x 20 trigger in the top-left corner of an 800 x 600 viewport, tooltip 100 x 30:
no placement fits. -/
def tightLayout : Layout :=
  { rect := { left := 0, top := 0, width := 40, height := 20 }
    ttRect := { left := 0, top := 0, width := 100, height := 30 }
    clientWidth := 800, clientHeight := 600, scrollX := 0, scrollY := 0 }

/-- A trigger whose top is the double nearest to 38.4. -/
def fractionalRect : DOMRect := { left := 100, top := 192 / 5, width := 40, height := 20 }

/-- A tooltip whose height is the double nearest to 10.9. -/
def fractionalTip : DOMRect := { left := 0, top := 0, width := 100, height := 109 / 10 }

/-- A viewport 100 wide and a tooltip 200 wide. -/
def narrowLayout : Layout :=
  { rect := { left := 20, top := 200, width := 40, height := 20 }
    ttRect := { left := 0, top := 0, width := 200, height := 30 }
    clientWidth := 100, clientHeight := 600, scrollX := 0, scrollY := 0 }

/-! ## The focusability normalizer (lines 15-26) -/

/-- The method `toLowerCase()` on a tag name (ASCII letters). -/
def toLowerCase (s : String) : String := String.mk (s.data.map Char.toLower)

/-- The constant `naturallyFocusable` of line 18. -/
def naturallyFocusable (el : Element) : Bool :=
  let tag := toLowerCase el.tagName
  ["a", "button", "input", "textarea", "select"].contains tag &&
    (tag != "a" || el.hasAttribute "href")

/-- The body of `ensureFocusable` (lines 17-21) on an element. -/
def Element.ensureFocusable (el : Element) : Element :=
  if !naturallyFocusable el && !el.hasAttribute "tabindex" then el.setAttribute "tabindex" "0"
  else el

/-- The function `ensureFocusable` (lines 15-22): nothing happens for a value that is
not an element. -/
def ensureFocusable (s : State) (n : Node) : State :=
  match n with
  | .other => s
  | .element e => { s with dom := Function.update s.dom e (s.dom e).ensureFocusable }

/-- An element can take keyboard focus: it is natively focusable or has a `tabindex`
attribute. -/
def keyboardFocusable (el : Element) : Bool :=
  naturallyFocusable el || el.hasAttribute "tabindex"

/-- The tree of the document as the DOM methods see it: all elements in document order,
and for each element its proper ancestors, nearest first. -/
structure Document where
  nodes : List ElemId
  ancestors : ElemId → List ElemId

/-- The elements strictly below `root`, in document order. -/
def Document.descendants (doc : Document) (root : ElemId) : List ElemId :=
  doc.nodes.filter (fun e => (doc.ancestors e).contains root)

/-- The call `root.querySelectorAll('[data-tooltip]')`; `none` is the `document`. -/
def querySelectorAll (doc : Document) (s : State) (root : Option ElemId) : List ElemId :=
  match root with
  | none => doc.nodes.filter (fun e => (s.dom e).hasAttribute TOOLTIP_ATTR)
  | some r => (doc.descendants r).filter (fun e => (s.dom e).hasAttribute TOOLTIP_ATTR)

/-- The function `makeAllTooltipTriggersFocusable` (lines 24-26). -/
def makeAllTooltipTriggersFocusable (doc : Document) (root : Option ElemId) (s : State) :
    State :=
  ((querySelectorAll doc s root).map Node.element).foldl ensureFocusable s

/-- A `MutationRecord`: its type and its added nodes. -/
structure MutationRecord where
  type : String
  addedNodes : List Node

/-- The body run for one added node (lines 166-169). -/
def onAddedNode (doc : Document) (s : State) (n : Node) : State :=
  match n with
  | .other => s
  | .element e =>
    let s1 := if (s.dom e).hasAttribute TOOLTIP_ATTR then ensureFocusable s (.element e) else s
    makeAllTooltipTriggersFocusable doc (some e) s1

/-- The body run for one mutation record (lines 164-171). -/
def onMutation (doc : Document) (s : State) (m : MutationRecord) : State :=
  if m.type = "childList" && m.addedNodes.length != 0 then m.addedNodes.foldl (onAddedNode doc) s
  else s

/-- The `MutationObserver` callback (lines 162-173). -/
def onMutations (doc : Document) (mutations : List MutationRecord) (s : State) : State :=
  mutations.foldl (onMutation doc) s

/-! ## Event listeners (lines 122-160) -/

/-- The function `closestIfElement` (line 122) for the selector `[data-tooltip]`: the
nearest of the node itself and its ancestors that has the attribute. -/
def closestIfElement (doc : Document) (s : State) (node : Node) : Option ElemId :=
  match node with
  | .other => none
  | .element e => (e :: doc.ancestors e).find? (fun a => (s.dom a).hasAttribute TOOLTIP_ATTR)

/-- The related target of a pointer or focus event, as the test of lines 133 and 146 sees
it: an element; a node that is not an element (a text or comment node, or the document),
with its parent element if it has one; or a value that is not a `Node` (`null`, the
window). -/
inductive Related where
  | element (id : ElemId)
  | node (parent : Option ElemId)
  | notNode
  deriving DecidableEq

/-- The test `related instanceof Node && from.contains(related)`: `related` is a node,
and it is `from` or lies inside `from`. -/
def containsRelated (doc : Document) (el : ElemId) (related : Related) : Bool :=
  match related with
  | .notNode => false
  | .node none => false
  | .node (some p) => (p :: doc.ancestors p).contains el
  | .element r => (r :: doc.ancestors r).contains el

/-- A pointer or focus event: its target and its related target. -/
structure UIEvent where
  target : Node
  relatedTarget : Related

/-- A keyboard event: its key and its target. -/
structure KeyboardEvent where
  key : String
  target : Node

/-- The `pointerenter` listener (lines 124-127). -/
def onPointerEnter (doc : Document) (ev : UIEvent) (s : State) : State :=
  match closestIfElement doc s ev.target with
  | some el => showTooltipFor (.element el) s
  | none => s

/-- The `pointerleave` listener (lines 129-135). -/
def onPointerLeave (doc : Document) (ev : UIEvent) (s : State) : State :=
  match closestIfElement doc s ev.target with
  | none => s
  | some el => if containsRelated doc el ev.relatedTarget then s else hideTooltip s

/-- The `focusin` listener (lines 137-140). -/
def onFocusIn (doc : Document) (ev : UIEvent) (s : State) : State :=
  match closestIfElement doc s ev.target with
  | some el => showTooltipFor (.element el) s
  | none => s

/-- The `focusout` listener (lines 142-148). -/
def onFocusOut (doc : Document) (ev : UIEvent) (s : State) : State :=
  match closestIfElement doc s ev.target with
  | none => s
  | some el => if containsRelated doc el ev.relatedTarget then s else hideTooltip s

/-- The `keydown` listener (lines 150-152). -/
def onKeyDown (ev : KeyboardEvent) (s : State) : State :=
  if ev.key = "Escape" then hideTooltip s else s

/-- The `scroll` listener (lines 154-156). -/
def onScroll (s : State) : State :=
  if s.currentTrigger.isSome then requestAnimationFrame .positionTooltip s else s

/-- The `resize` listener (lines 158-160). -/
def onResize (s : State) : State :=
  if s.currentTrigger.isSome then requestAnimationFrame .positionTooltip s else s

/-- A window event the script listens to. -/
inductive WindowEvent where
  | scroll
  | resize
  deriving DecidableEq

/-- The listener of a window event. -/
def onWindowEvent (s : State) : WindowEvent → State
  | .scroll => onScroll s
  | .resize => onResize s

/-- One queued callback runs, reading layout `g`. -/
def runCallback (g : Layout) (s : State) : FrameCallback → State
  | .positionTooltip => positionTooltip g s

/-- The next animation frame fires: the queue is taken and every callback in it runs, in
order; callbacks requested meanwhile would wait for the frame after. -/
def fireFrame (g : Layout) (s : State) : State :=
  s.frames.foldl (runCallback g) { s with frames := [] }

/-- A document tree for `exampleDom`: elements 0 to 3 side by side, element 4 a child
of element 0. -/
def exampleDoc : Document :=
  { nodes := [0, 4, 1, 2, 3]
    ancestors := fun e => if e = 4 then [0] else [] }

/-- A `span` trigger without `tabindex`, as the demo's add button creates it. -/
def exampleSpan : Element :=
  { tagName := "SPAN", attrs := [("class", "dynamic"), ("data-tooltip", "Dynamically added")] }

/-- A `button` trigger: natively focusable. -/
def exampleButton : Element :=
  { tagName := "BUTTON", attrs := [("data-tooltip", "Send")] }

/-- A `div` trigger that already declares `tabindex="-1"`. -/
def exampleTabbed : Element :=
  { tagName := "DIV", attrs := [("tabindex", "-1"), ("data-tooltip", "Panel")] }

/-- The example document after a panel was inserted: element 5 is a `div` trigger, its
children are element 6, a `span` trigger, and element 7, a `button` trigger. -/
def insertedDom : ElemId → Element := fun i =>
  if i = 5 then { tagName := "DIV", attrs := [("data-tooltip", "Panel")] }
  else if i = 6 then exampleSpan
  else if i = 7 then exampleButton
  else exampleDom i

/-- The tree of `insertedDom`. -/
def insertedDoc : Document :=
  { nodes := [0, 4, 1, 2, 3, 5, 6, 7]
    ancestors := fun e => if e = 4 then [0] else if e = 6 ∨ e = 7 then [5] else [] }

/-- The state in which the mutation observer is told about the inserted panel. -/
def insertedState : State := { exampleVisible with dom := insertedDom }

/-- The example state after the first animation frame has fired with the trigger in the
corner layout: element 0 is active and nothing is scheduled. -/
def exampleSettled : State := fireFrame cornerLayout exampleVisible

/-! ## Facts about double rounding -/

theorem bitLength_zero (fuel : ℕ) : bitLength fuel 0 = 0 := by
  cases fuel <;> simp [bitLength]

theorem bitLength_spec (fuel n : ℕ) (h : n ≤ fuel) :
    n < 2 ^ bitLength fuel n ∧ (n ≠ 0 → 2 ^ bitLength fuel n ≤ 2 * n) := by
  induction fuel generalizing n with
  | zero =>
    have : n = 0 := by omega
    subst this
    simp [bitLength]
  | succ fuel ih =>
    by_cases hn : n = 0
    · subst hn
      simp [bitLength]
    · have hdiv : n / 2 ≤ fuel := by omega
      obtain ⟨h1, h2⟩ := ih (n / 2) hdiv
      simp only [bitLength, hn, if_false, pow_succ]
      refine ⟨by omega, fun _ => ?_⟩
      by_cases h0 : n / 2 = 0
      · rw [h0, bitLength_zero]
        omega
      · have := h2 h0
        omega

/-- The binary exponent brackets `x` between two consecutive powers of two. -/
theorem binade_spec {x : ℚ} (hx : 0 < x) :
    (2 : ℚ) ^ binade x ≤ x ∧ x < (2 : ℚ) ^ (binade x + 1) := by
  have hnum : 0 < x.num := Rat.num_pos.mpr hx
  have hden : 0 < x.den := x.den_pos
  have hn0 : x.num.natAbs ≠ 0 := by
    intro h
    rw [Int.natAbs_eq_zero] at h
    omega
  have hxmul : x * ((x.den : ℕ) : ℚ) = ((x.num.natAbs : ℕ) : ℚ) := by
    calc x * ((x.den : ℕ) : ℚ) = ((x.num : ℤ) : ℚ) := Rat.mul_den_eq_num x
      _ = (((x.num.natAbs : ℕ) : ℤ) : ℚ) := by rw [Int.natAbs_of_nonneg (le_of_lt hnum)]
      _ = ((x.num.natAbs : ℕ) : ℚ) := Int.cast_natCast _
  obtain ⟨a1, a2⟩ := bitLength_spec x.num.natAbs x.num.natAbs (le_refl _)
  obtain ⟨b1, b2⟩ := bitLength_spec x.den x.den (le_refl _)
  have a2 := a2 hn0
  have b2 := b2 (Nat.pos_iff_ne_zero.mp hden)
  unfold binade
  generalize bitLength x.num.natAbs x.num.natAbs = A at *
  generalize bitLength x.den x.den = B at *
  generalize x.num.natAbs = n at *
  generalize x.den = d at *
  have hdq : (0 : ℚ) < (d : ℚ) := by exact_mod_cast hden
  have a1q : (n : ℚ) < 2 ^ A := by exact_mod_cast a1
  have a2q : (2 : ℚ) ^ A ≤ 2 * n := by exact_mod_cast a2
  have b1q : (d : ℚ) < 2 ^ B := by exact_mod_cast b1
  have b2q : (2 : ℚ) ^ B ≤ 2 * d := by exact_mod_cast b2
  have hpb : (0 : ℚ) < 2 ^ B := pow_pos (by norm_num) _
  have hk : (2 : ℚ) ^ ((A : ℤ) - (B : ℤ)) = 2 ^ A / 2 ^ B := by
    rw [zpow_sub₀ (by norm_num), zpow_natCast, zpow_natCast]
  have hup : x < (2 : ℚ) ^ ((A : ℤ) - (B : ℤ) + 1) := by
    rw [zpow_add₀ (by norm_num), hk, zpow_one, div_mul_eq_mul_div, lt_div_iff₀ hpb]
    have h1 : x * 2 ^ B ≤ x * (2 * d) := mul_le_mul_of_nonneg_left b2q (le_of_lt hx)
    linarith
  have hlow : (2 : ℚ) ^ ((A : ℤ) - (B : ℤ) - 1) ≤ x := by
    rw [zpow_sub₀ (by norm_num), hk, zpow_one, div_div, div_le_iff₀ (by positivity)]
    have h1 : x * d ≤ x * 2 ^ B := mul_le_mul_of_nonneg_left (le_of_lt b1q) (le_of_lt hx)
    linarith
  split_ifs with hc
  · exact ⟨hc, hup⟩
  · refine ⟨hlow, ?_⟩
    have : (A : ℤ) - (B : ℤ) - 1 + 1 = (A : ℤ) - (B : ℤ) := by ring
    rw [this]
    exact not_le.mp hc

theorem binade_eq_log {x : ℚ} (hx : 0 < x) : binade x = Int.log 2 x := by
  obtain ⟨h1, h2⟩ := binade_spec hx
  have l1 : binade x ≤ Int.log 2 x := by
    rw [← Int.zpow_le_iff_le_log (by norm_num) hx]
    simpa using h1
  have l2 : Int.log 2 x < binade x + 1 := by
    rw [← Int.lt_zpow_iff_log_lt (by norm_num) hx]
    simpa using h2
  omega

theorem ulpExp_eq {x : ℚ} (hx : 0 < x) : ulpExp x = max (Int.log 2 x - 52) (-1074) := by
  unfold ulpExp
  rw [binade_eq_log hx]

theorem floor_le_roundHalfEven (y : ℚ) : ⌊y⌋ ≤ roundHalfEven y := by
  unfold roundHalfEven
  split_ifs <;> omega

theorem roundHalfEven_le_floor_add_one (y : ℚ) : roundHalfEven y ≤ ⌊y⌋ + 1 := by
  unfold roundHalfEven
  split_ifs <;> omega

theorem roundHalfEven_sub_le (y : ℚ) : |(roundHalfEven y : ℚ) - y| ≤ 1 / 2 := by
  have h1 : ((⌊y⌋ : ℤ) : ℚ) ≤ y := Int.floor_le y
  have h2 : y < ((⌊y⌋ : ℤ) : ℚ) + 1 := Int.lt_floor_add_one y
  unfold roundHalfEven
  rw [abs_le]
  split_ifs with a b c
  · constructor <;> linarith
  · push_cast; constructor <;> linarith
  · constructor <;> linarith
  · push_cast; constructor <;> linarith

theorem roundHalfEven_intCast (n : ℤ) : roundHalfEven (n : ℚ) = n := by
  unfold roundHalfEven
  simp

theorem roundHalfEven_mono {y z : ℚ} (h : y ≤ z) : roundHalfEven y ≤ roundHalfEven z := by
  have hf : ⌊y⌋ ≤ ⌊z⌋ := Int.floor_mono h
  rcases lt_or_eq_of_le hf with hlt | heq
  · calc roundHalfEven y ≤ ⌊y⌋ + 1 := roundHalfEven_le_floor_add_one y
      _ ≤ ⌊z⌋ := hlt
      _ ≤ roundHalfEven z := floor_le_roundHalfEven z
  · unfold roundHalfEven
    rw [heq]
    have hyz : y - ⌊z⌋ ≤ z - ⌊z⌋ := by linarith
    split_ifs <;> first | omega | (exfalso; linarith)

theorem roundHalfEven_nonneg {y : ℚ} (h : 0 ≤ y) : 0 ≤ roundHalfEven y := by
  have := roundHalfEven_mono h
  rwa [show ((0 : ℚ)) = ((0 : ℤ) : ℚ) by simp, roundHalfEven_intCast] at this

theorem ulp_pos (x : ℚ) : (0 : ℚ) < 2 ^ ulpExp x := zpow_pos (by norm_num) _

theorem toDoubleMag_nonneg {x : ℚ} (h : 0 ≤ x) : 0 ≤ toDoubleMag x := by
  unfold toDoubleMag
  have hy : 0 ≤ x / 2 ^ ulpExp x := div_nonneg h (le_of_lt (ulp_pos x))
  have := roundHalfEven_nonneg hy
  exact mul_nonneg (by exact_mod_cast this) (le_of_lt (ulp_pos x))

/-- The rounding error is at most half a unit in the last place. -/
theorem toDoubleMag_sub_le (x : ℚ) : |toDoubleMag x - x| ≤ 2 ^ ulpExp x / 2 := by
  have hs := ulp_pos x
  have hr := roundHalfEven_sub_le (x / 2 ^ ulpExp x)
  have e : toDoubleMag x - x
      = ((roundHalfEven (x / 2 ^ ulpExp x) : ℚ) - x / 2 ^ ulpExp x) * 2 ^ ulpExp x := by
    unfold toDoubleMag
    field_simp
  rw [e, abs_mul, abs_of_pos hs]
  calc |(roundHalfEven (x / 2 ^ ulpExp x) : ℚ) - x / 2 ^ ulpExp x| * 2 ^ ulpExp x
      ≤ 1 / 2 * 2 ^ ulpExp x := mul_le_mul_of_nonneg_right hr (le_of_lt hs)
    _ = 2 ^ ulpExp x / 2 := by ring

theorem zpow_log_le {x : ℚ} (h : 0 < x) : (2 : ℚ) ^ Int.log 2 x ≤ x := by
  have := Int.zpow_log_le_self (b := 2) (by norm_num) h
  simpa using this

theorem lt_zpow_log_succ (x : ℚ) : x < (2 : ℚ) ^ (Int.log 2 x + 1) := by
  have := Int.lt_zpow_succ_log_self (b := 2) (by norm_num) x
  simpa using this

/-- Half a unit in the last place is at most `2^-53` of the magnitude, or `2^-1075` in
the subnormal range. -/
theorem half_ulp_le {x : ℚ} (h : 0 < x) :
    (2 : ℚ) ^ ulpExp x / 2 ≤ 2 ^ (-53 : ℤ) * x + 2 ^ (-1075 : ℤ) := by
  have hx := zpow_log_le h
  have h1 : (0 : ℚ) ≤ 2 ^ (-53 : ℤ) * x := mul_nonneg (le_of_lt (zpow_pos (by norm_num) _)) (le_of_lt h)
  have h2 : (0 : ℚ) < 2 ^ (-1075 : ℤ) := zpow_pos (by norm_num) _
  rw [ulpExp_eq h]
  rcases max_cases (Int.log 2 x - 52) (-1074) with ⟨hm, -⟩ | ⟨hm, -⟩
  · rw [hm]
    have e : (2 : ℚ) ^ (Int.log 2 x - 52) / 2 = 2 ^ (-53 : ℤ) * 2 ^ Int.log 2 x := by
      rw [show Int.log 2 x - 52 = Int.log 2 x + (-53) + 1 by ring, zpow_add₀ (by norm_num),
        zpow_add₀ (by norm_num)]
      simp
      ring
    rw [e]
    have := mul_le_mul_of_nonneg_left hx (le_of_lt (zpow_pos (by norm_num : (0:ℚ) < 2) (-53)))
    linarith
  · rw [hm]
    have e : (2 : ℚ) ^ (-1074 : ℤ) / 2 = 2 ^ (-1075 : ℤ) := by
      rw [show (-1074 : ℤ) = -1075 + 1 by norm_num, zpow_add₀ (by norm_num)]
      simp
    rw [e]
    linarith

theorem roundHalfEven_half : roundHalfEven (1 / 2) = 0 := by decide!

theorem zpow_eq_intCast {k : ℤ} (hk : 0 ≤ k) : (2 : ℚ) ^ k = (((2 : ℤ) ^ k.toNat : ℤ) : ℚ) := by
  obtain ⟨n, rfl⟩ := Int.eq_ofNat_of_zero_le hk
  simp

theorem toDoubleMag_le_zpow (x : ℚ) :
    toDoubleMag x ≤ 2 ^ (Int.log 2 x + 1) := by
  have hs := ulp_pos x
  have hlt : x / 2 ^ ulpExp x < 2 ^ (Int.log 2 x + 1 - ulpExp x) := by
    rw [zpow_sub₀ (by norm_num), div_lt_div_iff_of_pos_right hs]
    exact lt_zpow_log_succ x
  have hsplit : (2 : ℚ) ^ (Int.log 2 x + 1)
      = 2 ^ (Int.log 2 x + 1 - ulpExp x) * 2 ^ ulpExp x := by
    rw [← zpow_add₀ (by norm_num)]
    congr 1
    ring
  unfold toDoubleMag
  by_cases hk : 0 ≤ Int.log 2 x + 1 - ulpExp x
  · have hR := roundHalfEven_mono (le_of_lt hlt)
    rw [zpow_eq_intCast hk, roundHalfEven_intCast] at hR
    rw [hsplit, zpow_eq_intCast hk]
    exact mul_le_mul_of_nonneg_right (by exact_mod_cast hR) (le_of_lt hs)
  · have hk' : Int.log 2 x + 1 - ulpExp x ≤ -1 := by omega
    have hhalf : x / 2 ^ ulpExp x ≤ 1 / 2 := by
      have h1 : (2 : ℚ) ^ (Int.log 2 x + 1 - ulpExp x) ≤ 2 ^ (-1 : ℤ) :=
        zpow_le_zpow_right₀ (by norm_num) hk'
      have h2 : (2 : ℚ) ^ (-1 : ℤ) = 1 / 2 := by norm_num
      exact le_trans (le_of_lt hlt) (le_trans h1 (le_of_eq h2))
    have hR := roundHalfEven_mono hhalf
    rw [roundHalfEven_half] at hR
    have hR' : (roundHalfEven (x / 2 ^ ulpExp x) : ℚ) ≤ 0 := by exact_mod_cast hR
    have hpos : (0 : ℚ) < 2 ^ (Int.log 2 x + 1) := zpow_pos (by norm_num) _
    have := mul_le_mul_of_nonneg_right hR' (le_of_lt hs)
    linarith

theorem zpow_le_toDoubleMag {x : ℚ} (h : 0 < x) (hn : ulpExp x = Int.log 2 x - 52) :
    (2 : ℚ) ^ Int.log 2 x ≤ toDoubleMag x := by
  have hs := ulp_pos x
  have hle : (2 : ℚ) ^ (52 : ℤ) ≤ x / 2 ^ ulpExp x := by
    rw [le_div_iff₀ hs, hn, ← zpow_add₀ (by norm_num)]
    have : (52 : ℤ) + (Int.log 2 x - 52) = Int.log 2 x := by ring
    rw [this]
    exact zpow_log_le h
  have hR := roundHalfEven_mono hle
  rw [zpow_eq_intCast (by norm_num : (0 : ℤ) ≤ 52), roundHalfEven_intCast] at hR
  have hsplit : (2 : ℚ) ^ Int.log 2 x = 2 ^ (52 : ℤ) * 2 ^ ulpExp x := by
    rw [hn, ← zpow_add₀ (by norm_num)]
    congr 1
    ring
  unfold toDoubleMag
  rw [hsplit, zpow_eq_intCast (by norm_num : (0 : ℤ) ≤ 52)]
  exact mul_le_mul_of_nonneg_right (by exact_mod_cast hR) (le_of_lt hs)

theorem toDoubleMag_mono {x y : ℚ} (hx : 0 ≤ x) (h : x ≤ y) : toDoubleMag x ≤ toDoubleMag y := by
  rcases eq_or_lt_of_le hx with h0 | hpos
  · rw [← h0]
    have : toDoubleMag 0 = 0 := by simp [toDoubleMag, roundHalfEven]
    rw [this]
    exact toDoubleMag_nonneg (le_trans hx h)
  have hy : 0 < y := lt_of_lt_of_le hpos h
  have hlog : Int.log 2 x ≤ Int.log 2 y := Int.log_mono_right hpos h
  have hx' := ulpExp_eq hpos
  have hy' := ulpExp_eq hy
  have hp : ulpExp x ≤ ulpExp y := by
    rw [hx', hy']
    exact max_le_max (by omega) (le_refl _)
  rcases eq_or_lt_of_le hp with heq | hlt
  · unfold toDoubleMag
    rw [heq]
    have hs := ulp_pos y
    have : x / 2 ^ ulpExp y ≤ y / 2 ^ ulpExp y := div_le_div_of_nonneg_right h (le_of_lt hs)
    have hR := roundHalfEven_mono this
    exact mul_le_mul_of_nonneg_right (by exact_mod_cast hR) (le_of_lt hs)
  · rw [hx', hy'] at hlt
    have hny : ulpExp y = Int.log 2 y - 52 := by
      rw [hy']
      rcases max_cases (Int.log 2 y - 52) (-1074) with ⟨hm, -⟩ | ⟨hm, -⟩
      · exact hm
      · rw [hm] at hlt
        have := le_max_right (Int.log 2 x - 52) (-1074)
        omega
    have hlog' : Int.log 2 x + 1 ≤ Int.log 2 y := by
      rw [hy'] at hny
      rw [hny] at hlt
      have := le_max_left (Int.log 2 x - 52) (-1074)
      omega
    calc toDoubleMag x ≤ 2 ^ (Int.log 2 x + 1) := toDoubleMag_le_zpow x
      _ ≤ 2 ^ Int.log 2 y := zpow_le_zpow_right₀ (by norm_num) hlog'
      _ ≤ toDoubleMag y := zpow_le_toDoubleMag hy hny

theorem toDouble_mono {x y : ℚ} (h : x ≤ y) : toDouble x ≤ toDouble y := by
  unfold toDouble
  by_cases hx : 0 ≤ x
  · have hy : 0 ≤ y := le_trans hx h
    rw [if_pos hx, if_pos hy]
    exact toDoubleMag_mono hx h
  · rw [if_neg hx]
    have hx' : 0 ≤ -x := by linarith
    by_cases hy : 0 ≤ y
    · rw [if_pos hy]
      have := toDoubleMag_nonneg hx'
      have := toDoubleMag_nonneg hy
      linarith
    · rw [if_neg hy]
      have hy' : 0 ≤ -y := by linarith
      have := toDoubleMag_mono hy' (by linarith : -y ≤ -x)
      linarith

/-- The rounding error of `toDouble`: relative `2^-53`, or `2^-1075` near zero. -/
theorem toDouble_sub_le (x : ℚ) :
    |toDouble x - x| ≤ 2 ^ (-53 : ℤ) * |x| + 2 ^ (-1075 : ℤ) := by
  have hc : (0 : ℚ) < 2 ^ (-1075 : ℤ) := zpow_pos (by norm_num) _
  unfold toDouble
  by_cases hx : 0 ≤ x
  · rw [if_pos hx, abs_of_nonneg hx]
    rcases eq_or_lt_of_le hx with h0 | hpos
    · rw [← h0]
      have : toDoubleMag 0 = 0 := by simp [toDoubleMag, roundHalfEven]
      rw [this]
      simp only [sub_zero, abs_zero, mul_zero, zero_add]
      exact le_of_lt hc
    · exact le_trans (toDoubleMag_sub_le x) (half_ulp_le hpos)
  · rw [if_neg hx]
    have hneg : 0 < -x := by linarith
    rw [abs_of_neg (by linarith : x < 0)]
    have := le_trans (toDoubleMag_sub_le (-x)) (half_ulp_le hneg)
    have e : -toDoubleMag (-x) - x = -(toDoubleMag (-x) - -x) := by ring
    rw [e, abs_neg]
    exact this


/-- The rounding error of one double operation whose exact result has magnitude at most
`m`. -/
theorem toDouble_err {z m : ℚ} (hz : |z| ≤ m) :
    |toDouble z - z| ≤ 2 ^ (-53 : ℤ) * m + 2 ^ (-1075 : ℤ) := by
  have hu : (0 : ℚ) ≤ 2 ^ (-53 : ℤ) := le_of_lt (zpow_pos (by norm_num) _)
  have := toDouble_sub_le z
  have := mul_le_mul_of_nonneg_left hz hu
  linarith

theorem zpow_neg53_le_one : (2 : ℚ) ^ (-53 : ℤ) ≤ 1 := by
  have : (2 : ℚ) ^ (-53 : ℤ) ≤ 2 ^ (0 : ℤ) := zpow_le_zpow_right₀ (by norm_num) (by norm_num)
  simpa using this

theorem toDouble_abs_le {z m : ℚ} (hz : |z| ≤ m) :
    |toDouble z| ≤ 2 * m + 2 ^ (-1075 : ℤ) := by
  have h1 := toDouble_err hz
  have hm : 0 ≤ m := le_trans (abs_nonneg z) hz
  have hu := mul_le_mul_of_nonneg_right zpow_neg53_le_one hm
  have h2 : |toDouble z| ≤ |toDouble z - z| + |z| := by
    have := abs_add (toDouble z - z) z
    simpa using this
  linarith

theorem roundingSlack_eq (m : ℚ) :
    roundingSlack m = 4 * (2 ^ (-53 : ℤ) * m) + 8 * 2 ^ (-1075 : ℤ) := by
  unfold roundingSlack
  have h1 : (2 : ℚ) ^ (-51 : ℤ) = 4 * 2 ^ (-53 : ℤ) := by
    rw [show (-51 : ℤ) = 2 + -53 by norm_num, zpow_add₀ (by norm_num)]
    norm_num
  have h2 : (2 : ℚ) ^ (-1072 : ℤ) = 8 * 2 ^ (-1075 : ℤ) := by
    rw [show (-1072 : ℤ) = 3 + -1075 by norm_num, zpow_add₀ (by norm_num)]
    norm_num
  rw [h1, h2]
  ring

/-- The facts about double rounding that the error estimates use, with the two constants
`2^-53` and `2^-1075` named `u` and `c`. -/
theorem rounding_facts :
    ∃ u c : ℚ, 0 ≤ u ∧ u ≤ 1 ∧ 0 ≤ c ∧
      (∀ z m : ℚ, |z| ≤ m → |toDouble z - z| ≤ u * m + c) ∧
      (∀ z m : ℚ, |z| ≤ m → |toDouble z| ≤ 2 * m + c) ∧
      ∀ m : ℚ, roundingSlack m = 4 * (u * m) + 8 * c :=
  ⟨2 ^ (-53 : ℤ), 2 ^ (-1075 : ℤ), le_of_lt (zpow_pos (by norm_num) _), zpow_neg53_le_one,
    le_of_lt (zpow_pos (by norm_num) _), fun _ _ h => toDouble_err h,
    fun _ _ h => toDouble_abs_le h, roundingSlack_eq⟩

/-- One double addition is within the slack of the exact sum. -/
theorem dadd_err (a k : ℚ) : |dadd a k - (a + k)| ≤ roundingSlack (|a| + |k|) := by
  obtain ⟨u, c, hu, -, hc, herr, -, hslack⟩ := rounding_facts
  have h := herr (a + k) (|a| + |k|) (abs_add a k)
  have hn : 0 ≤ u * (|a| + |k|) := mul_nonneg hu (add_nonneg (abs_nonneg a) (abs_nonneg k))
  rw [hslack]
  unfold dadd
  linarith

/-- Two double subtractions in a row, `(a - b) - k`, are within the slack of the exact
difference. -/
theorem dsub_dsub_err (a b k : ℚ) :
    |dsub (dsub a b) k - (a - b - k)| ≤ roundingSlack (|a| + |b| + |k|) := by
  obtain ⟨u, c, hu, hu1, hc, herr, habs, hslack⟩ := rounding_facts
  have hm1 : |a - b| ≤ |a| + |b| := abs_sub a b
  have e1 := herr _ _ hm1
  have a1 := habs _ _ hm1
  have hm2 : |toDouble (a - b) - k| ≤ 2 * (|a| + |b|) + c + |k| :=
    le_trans (abs_sub _ _) (by linarith)
  have e2 := herr _ _ hm2
  have huc := mul_le_mul_of_nonneg_right hu1 hc
  have hna : 0 ≤ u * |a| := mul_nonneg hu (abs_nonneg a)
  have hnb : 0 ≤ u * |b| := mul_nonneg hu (abs_nonneg b)
  have hnk : 0 ≤ u * |k| := mul_nonneg hu (abs_nonneg k)
  have hsplit : dsub (dsub a b) k - (a - b - k)
      = (toDouble (toDouble (a - b) - k) - (toDouble (a - b) - k))
        + (toDouble (a - b) - (a - b)) := by
    unfold dsub; ring
  rw [hsplit, hslack]
  refine le_trans (abs_add _ _) ?_
  linarith

/-- The centring expression `l + (wd - w) / 2` in double arithmetic is within the slack
of its exact value. -/
theorem centre_err (l wd w : ℚ) :
    |dadd l (ddiv (dsub wd w) 2) - (l + (wd - w) / 2)| ≤ roundingSlack (|l| + |wd| + |w|) := by
  obtain ⟨u, c, hu, hu1, hc, herr, habs, hslack⟩ := rounding_facts
  have hm1 : |wd - w| ≤ |wd| + |w| := abs_sub wd w
  have e1 := herr _ _ hm1
  have a1 := habs _ _ hm1
  have hm2 : |toDouble (wd - w) / 2| ≤ (|wd| + |w|) + c := by
    rw [abs_div, abs_of_pos (by norm_num : (0 : ℚ) < 2)]
    linarith
  have e2 := herr _ _ hm2
  have a2 := habs _ _ hm2
  have hm3 : |l + toDouble (toDouble (wd - w) / 2)|
      ≤ |l| + (2 * ((|wd| + |w|) + c) + c) :=
    le_trans (abs_add _ _) (by linarith)
  have e3 := herr _ _ hm3
  have huc := mul_le_mul_of_nonneg_right hu1 hc
  have hnl : 0 ≤ u * |l| := mul_nonneg hu (abs_nonneg l)
  have hnd : 0 ≤ u * |wd| := mul_nonneg hu (abs_nonneg wd)
  have hnw : 0 ≤ u * |w| := mul_nonneg hu (abs_nonneg w)
  have hsplit : dadd l (ddiv (dsub wd w) 2) - (l + (wd - w) / 2)
      = (toDouble (l + toDouble (toDouble (wd - w) / 2)) - (l + toDouble (toDouble (wd - w) / 2)))
        + ((toDouble (toDouble (wd - w) / 2) - toDouble (wd - w) / 2)
          + (toDouble (wd - w) - (wd - w)) / 2) := by
    unfold dadd ddiv dsub; ring
  have e1' : |(toDouble (wd - w) - (wd - w)) / 2| ≤ u * (|wd| + |w|) + c := by
    rw [abs_div, abs_of_pos (by norm_num : (0 : ℚ) < 2)]
    have := abs_nonneg (toDouble (wd - w) - (wd - w))
    linarith
  rw [hsplit, hslack]
  refine le_trans (abs_add _ _) ?_
  have := abs_add (toDouble (toDouble (wd - w) / 2) - toDouble (wd - w) / 2)
    ((toDouble (wd - w) - (wd - w)) / 2)
  linarith

/-! ## Facts about the JavaScript primitives and the candidate list -/

theorem truthy_some_iff {v : String} : truthy (some v) = true ↔ v ≠ "" := by
  simp [truthy]

theorem orElse_of_truthy {a : Option String} {d : String} (h : truthy a = true) :
    a = some (orElse a d) := by
  cases a with
  | none => simp [truthy] at h
  | some v =>
    have hv : v ≠ "" := truthy_some_iff.mp h
    simp [orElse, hv]

theorem orElse_ne_empty (a : Option String) {d : String} (hd : d ≠ "") : orElse a d ≠ "" := by
  cases a with
  | none => simpa [orElse] using hd
  | some v =>
    by_cases hv : v = ""
    · simpa [orElse, hv] using hd
    · simp [orElse, hv]

theorem preferredOf_ne_empty (t : Surface) : preferredOf t ≠ "" :=
  orElse_ne_empty _ (by decide)

theorem fits_iff (c : Coords) (viewport : Viewport) :
    fits c viewport = true ↔ inViewport c viewport := by
  simp [fits, inViewport, and_assoc]

theorem candidates_eq (p : String) :
    candidates p = p :: placementNames.filter (fun q => q != p) := by
  by_cases h1 : p = "top"
  · subst h1; decide
  by_cases h2 : p = "right"
  · subst h2; decide
  by_cases h3 : p = "bottom"
  · subst h3; decide
  by_cases h4 : p = "left"
  · subst h4; decide
  have e1 : ("top" == p) = false := by simpa [beq_eq_false_iff_ne] using Ne.symm h1
  have e2 : ("right" == p) = false := by simpa [beq_eq_false_iff_ne] using Ne.symm h2
  have e3 : ("bottom" == p) = false := by simpa [beq_eq_false_iff_ne] using Ne.symm h3
  have e4 : ("left" == p) = false := by simpa [beq_eq_false_iff_ne] using Ne.symm h4
  have hr : placementNames.filter (fun q => q != p) = placementNames := by
    simp [placementNames, List.filter_cons, bne, e1, e2, e3, e4]
  have f1 : (p == "top") = false := by simpa [beq_eq_false_iff_ne] using h1
  have f2 : (p == "right") = false := by simpa [beq_eq_false_iff_ne] using h2
  have f3 : (p == "bottom") = false := by simpa [beq_eq_false_iff_ne] using h3
  have f4 : (p == "left") = false := by simpa [beq_eq_false_iff_ne] using h4
  rw [hr]
  simp [candidates, placementNames, List.enum, List.enumFrom, List.indexOf_cons, List.filter_cons,
    e1, e2, e3, e4, f1, f2, f3, f4]

theorem mem_candidates {p q : String} :
    q ∈ candidates p ↔ q = p ∨ q ∈ placementNames := by
  rw [candidates_eq]
  simp only [List.mem_cons, List.mem_filter]
  constructor
  · rintro (h | ⟨h, -⟩)
    · exact Or.inl h
    · exact Or.inr h
  · rintro (h | h)
    · exact Or.inl h
    · by_cases hq : q = p
      · exact Or.inl hq
      · exact Or.inr ⟨h, by simpa [bne_iff_ne] using hq⟩

theorem candidates_nodup (p : String) : (candidates p).Nodup := by
  rw [candidates_eq]
  refine List.nodup_cons.mpr ⟨?_, ?_⟩
  · simp [List.mem_filter]
  · exact List.Nodup.filter _ (by decide)

theorem candidates_ne_empty {p q : String} (hp : p ≠ "") (hq : q ∈ candidates p) : q ≠ "" := by
  rcases mem_candidates.mp hq with h | h
  · exact h ▸ hp
  · intro hq0
    subst hq0
    exact absurd h (by decide)

/-! ## Facts about the choice of placement -/

/-- When `find` returns a candidate, it is the chosen placement. -/
theorem choosePlacement_of_find_some {g : Layout} {p r : String} (hp : p ≠ "")
    (h : (candidates p).find? (fun q => fits (computeCoords g.rect g.ttRect q) g.viewport)
      = some r) :
    choosePlacement g p = r := by
  have hr : r ≠ "" := candidates_ne_empty hp (List.mem_of_find?_eq_some h)
  simp [choosePlacement, h, truthy, orElse, hr]

/-- When `find` returns nothing, the chosen placement is the best overlap. -/
theorem choosePlacement_of_find_none {g : Layout} {p : String}
    (h : (candidates p).find? (fun q => fits (computeCoords g.rect g.ttRect q) g.viewport)
      = none) :
    choosePlacement g p = (bestOverlap g.rect g.ttRect g.viewport (candidates p)).place := by
  simp [choosePlacement, h, truthy]

/-- A pass with an active trigger records the chosen placement on the surface. -/
theorem positionTooltip_placement {g : Layout} {s : State} {e : ElemId}
    (h : s.currentTrigger = some e) :
    (positionTooltip g s).tooltip.datasetPlacement
      = some (choosePlacement g (preferredOf s.tooltip)) := by
  simp [positionTooltip, h, preferredOf]

/-- The `find` of lines 92-95 splits the candidate list at the first candidate that
fits. -/
theorem find_first_fit {g : Layout} {l : List String} {r : String}
    (h : l.find? (fun q => fits (computeCoords g.rect g.ttRect q) g.viewport) = some r) :
    inViewport (g.coords r) g.viewport ∧
      ∃ l1 l2, l = l1 ++ r :: l2 ∧ ∀ q ∈ l1, ¬ inViewport (g.coords q) g.viewport := by
  obtain ⟨hr, l1, l2, hl, hl1⟩ := List.find?_eq_some.mp h
  refine ⟨(fits_iff _ _).mp hr, l1, l2, hl, ?_⟩
  intro q hq hin
  have hq1 := hl1 q hq
  have hq2 : fits (computeCoords g.rect g.ttRect q) g.viewport = true := (fits_iff _ _).mpr hin
  simp [hq2] at hq1

/-- If some candidate fits, `find` returns one. -/
theorem find_some_of_fit {g : Layout} {l : List String} {q : String} (hq : q ∈ l)
    (hfit : inViewport (g.coords q) g.viewport) :
    ∃ r, l.find? (fun q => fits (computeCoords g.rect g.ttRect q) g.viewport) = some r := by
  cases hf : l.find? (fun q => fits (computeCoords g.rect g.ttRect q) g.viewport) with
  | some r => exact ⟨r, rfl⟩
  | none =>
    have := List.find?_eq_none.mp hf q hq
    exact absurd ((fits_iff _ _).mpr hfit) this

/-! ## C1: a fitting candidate is chosen whenever one exists -/

/-- C1. In `positionTooltip`, for every layout (trigger rectangle, tooltip size, viewport
size) and every state with an active trigger (whatever placement the surface carries as
preferred): if one of `top`, `right`, `bottom`, `left` has a `computeCoords` rectangle
inside `[0, viewport.width] x [0, viewport.height]`, the pass records a placement whose
`computeCoords` rectangle is inside the viewport too. -/
theorem positionTooltip_chosen_fits (g : Layout) (s : State) (e : ElemId)
    (hcur : s.currentTrigger = some e)
    (hfit : ∃ p ∈ placementNames, inViewport (g.coords p) g.viewport) :
    ∃ chosen, (positionTooltip g s).tooltip.datasetPlacement = some chosen ∧
      inViewport (g.coords chosen) g.viewport := by
  obtain ⟨p, hp, hpfit⟩ := hfit
  have hmem : p ∈ candidates (preferredOf s.tooltip) := mem_candidates.mpr (Or.inr hp)
  obtain ⟨r, hr⟩ := find_some_of_fit hmem hpfit
  refine ⟨r, ?_, (find_first_fit hr).1⟩
  rw [positionTooltip_placement hcur, choosePlacement_of_find_some (preferredOf_ne_empty _) hr]

/-- Witness for C1: the trigger of the example document in the top-left corner, where
`right` fits. -/
theorem positionTooltip_chosen_fits_witness :
    ∃ chosen, (positionTooltip cornerLayout exampleVisible).tooltip.datasetPlacement
        = some chosen ∧
      inViewport (cornerLayout.coords chosen) cornerLayout.viewport :=
  positionTooltip_chosen_fits cornerLayout exampleVisible 0 (by decide)
    ⟨"right", by decide, by decide!⟩

/-! ## C3: the best-overlap fallback -/

theorem clippedArea_nonneg (c : Coords) (viewport : Viewport) : 0 ≤ clippedArea c viewport := by
  unfold clippedArea
  exact mul_nonneg (le_max_left _ _) (le_max_left _ _)

/-- The loop of lines 99-107 either keeps its start value, and then no element had a
larger area, or ends on the first element of the largest area. -/
theorem foldl_bestStep (rect ttRect : DOMRect) (viewport : Viewport) (l : List String)
    (b : Best) :
    (l.foldl (bestStep rect ttRect viewport) b = b ∧
        ∀ q ∈ l, clippedArea (computeCoords rect ttRect q) viewport ≤ b.area) ∨
      ∃ l1 l2, l = l1 ++ (l.foldl (bestStep rect ttRect viewport) b).place :: l2 ∧
        (l.foldl (bestStep rect ttRect viewport) b).area
          = clippedArea (computeCoords rect ttRect
              (l.foldl (bestStep rect ttRect viewport) b).place) viewport ∧
        b.area < (l.foldl (bestStep rect ttRect viewport) b).area ∧
        (∀ q ∈ l1, clippedArea (computeCoords rect ttRect q) viewport
          < (l.foldl (bestStep rect ttRect viewport) b).area) ∧
        (∀ q ∈ l2, clippedArea (computeCoords rect ttRect q) viewport
          ≤ (l.foldl (bestStep rect ttRect viewport) b).area) := by
  induction l generalizing b with
  | nil => exact Or.inl ⟨rfl, by simp⟩
  | cons a l ih =>
    simp only [List.foldl_cons]
    by_cases ha : clippedArea (computeCoords rect ttRect a) viewport > b.area
    · have hb : bestStep rect ttRect viewport b a
          = { area := clippedArea (computeCoords rect ttRect a) viewport, place := a } := by
        simp [bestStep, ha]
      rw [hb]
      rcases ih { area := clippedArea (computeCoords rect ttRect a) viewport, place := a } with
        ⟨hr, hall⟩ | ⟨l1, l2, hl, harea, hlt, h1, h2⟩
      · right
        refine ⟨[], l, ?_, ?_, ?_, ?_, ?_⟩
        · rw [hr]; rfl
        · rw [hr]
        · rw [hr]; exact ha
        · simp
        · rw [hr]; exact hall
      · right
        refine ⟨a :: l1, l2, ?_, harea, ?_, ?_, h2⟩
        · rw [List.cons_append, ← hl]
        · exact lt_trans ha hlt
        · intro q hq
          rcases List.mem_cons.mp hq with rfl | hq
          · exact hlt
          · exact h1 q hq
    · have hb : bestStep rect ttRect viewport b a = b := by
        simp [bestStep, ha]
      rw [hb]
      have ha' : clippedArea (computeCoords rect ttRect a) viewport ≤ b.area := not_lt.mp ha
      rcases ih b with ⟨hr, hall⟩ | ⟨l1, l2, hl, harea, hlt, h1, h2⟩
      · left
        refine ⟨hr, ?_⟩
        intro q hq
        rcases List.mem_cons.mp hq with rfl | hq
        · exact ha'
        · exact hall q hq
      · right
        refine ⟨a :: l1, l2, ?_, harea, hlt, ?_, h2⟩
        · rw [List.cons_append, ← hl]
        · intro q hq
          rcases List.mem_cons.mp hq with rfl | hq
          · exact lt_of_le_of_lt ha' hlt
          · exact h1 q hq

/-- On the candidate list the fallback ends on the first candidate of the largest
clipped area. -/
theorem bestOverlap_first_max (g : Layout) (p : String) :
    ∃ l1 l2,
      candidates p = l1 ++ (bestOverlap g.rect g.ttRect g.viewport (candidates p)).place :: l2 ∧
      (∀ q ∈ l1, g.area q
        < g.area (bestOverlap g.rect g.ttRect g.viewport (candidates p)).place) ∧
      (∀ q ∈ l2, g.area q
        ≤ g.area (bestOverlap g.rect g.ttRect g.viewport (candidates p)).place) := by
  unfold bestOverlap
  rcases foldl_bestStep g.rect g.ttRect g.viewport (candidates p)
      { area := -1, place := (candidates p).headD "" } with
    ⟨-, hall⟩ | ⟨l1, l2, hl, harea, -, h1, h2⟩
  · have hp : p ∈ candidates p := mem_candidates.mpr (Or.inl rfl)
    have h0 := clippedArea_nonneg (computeCoords g.rect g.ttRect p) g.viewport
    have h1 := hall p hp
    have : (0 : ℚ) ≤ -1 := le_trans h0 h1
    exact absurd this (by norm_num)
  · refine ⟨l1, l2, hl, ?_, ?_⟩
    · intro q hq
      have := h1 q hq
      rw [harea] at this
      exact this
    · intro q hq
      have := h2 q hq
      rw [harea] at this
      exact this

/-- The points common to a rectangle and the viewport are exactly the points of the box
whose area `visibleArea` takes. -/
theorem covers_both_iff (c : Coords) (v : Viewport) (x y : ℚ) :
    c.covers x y ∧ v.covers x y ↔
      max (c.left : ℚ) 0 ≤ x ∧ x ≤ min ((c.left : ℚ) + c.w) v.width ∧
        max (c.top : ℚ) 0 ≤ y ∧ y ≤ min ((c.top : ℚ) + c.h) v.height := by
  unfold Coords.covers Viewport.covers
  simp only [max_le_iff, le_min_iff]
  tauto

/-- A rectangle of non-negative size that lies within the viewport is visible in full. -/
theorem visibleArea_of_inViewport (c : Coords) (v : Viewport) (h : inViewport c v)
    (hw : 0 ≤ c.w) (hh : 0 ≤ c.h) : visibleArea c v = c.w * c.h := by
  obtain ⟨h1, h2, h3, h4⟩ := h
  unfold visibleArea
  rw [max_eq_left h1, max_eq_left h2, min_eq_left h3, min_eq_left h4,
    if_pos ⟨by linarith, by linarith⟩]
  ring

/-- A rectangle with no point in the viewport has visible area 0. -/
theorem visibleArea_of_disjoint (c : Coords) (v : Viewport)
    (h : ∀ x y, ¬ (c.covers x y ∧ v.covers x y)) : visibleArea c v = 0 := by
  unfold visibleArea
  split_ifs with hbox
  · exact absurd ((covers_both_iff c v _ _).mpr ⟨le_refl _, hbox.1, le_refl _, hbox.2⟩)
      (h (max (c.left : ℚ) 0) (max (c.top : ℚ) 0))
  · rfl

theorem max_zero_mul_max_zero (a b : ℚ) :
    max 0 a * max 0 b = if 0 ≤ a ∧ 0 ≤ b then a * b else 0 := by
  split_ifs with h
  · rw [max_eq_right h.1, max_eq_right h.2]
  · rcases not_and_or.mp h with ha | hb
    · rw [max_eq_left (le_of_lt (not_le.mp ha)), zero_mul]
    · rw [max_eq_left (le_of_lt (not_le.mp hb)), mul_zero]

/-- The `area` the fallback loop computes (lines 101-105) is the visible area. -/
theorem clippedArea_eq_visibleArea (c : Coords) (v : Viewport) :
    clippedArea c v = visibleArea c v := by
  unfold clippedArea visibleArea
  simp only [max_comm (0 : ℚ) (c.left : ℚ), max_comm (0 : ℚ) (c.top : ℚ),
    min_comm v.width ((c.left : ℚ) + c.w), min_comm v.height ((c.top : ℚ) + c.h)]
  rw [max_zero_mul_max_zero]
  simp only [sub_nonneg]

theorem area_eq_visibleArea (g : Layout) (p : String) :
    g.area p = visibleArea (g.coords p) g.viewport :=
  clippedArea_eq_visibleArea _ _

/-- C3. In `positionTooltip`, when no candidate rectangle fits in the viewport, the
recorded placement is a candidate whose rectangle has a visible area (the area of its
part inside the viewport, `visibleArea`) at least that of every candidate, and it is the
first such candidate in the candidate list: every candidate before it has a strictly
smaller visible area.  So the preferred placement, which heads the list, is chosen unless
its visible area is strictly smaller than the chosen one's. -/
theorem positionTooltip_best_overlap (g : Layout) (s : State) (e : ElemId)
    (hcur : s.currentTrigger = some e)
    (hnone : ∀ p ∈ candidates (preferredOf s.tooltip), ¬ inViewport (g.coords p) g.viewport) :
    ∃ chosen l1 l2,
      (positionTooltip g s).tooltip.datasetPlacement = some chosen ∧
      candidates (preferredOf s.tooltip) = l1 ++ chosen :: l2 ∧
      (∀ q ∈ candidates (preferredOf s.tooltip),
        visibleArea (g.coords q) g.viewport ≤ visibleArea (g.coords chosen) g.viewport) ∧
      (∀ q ∈ l1,
        visibleArea (g.coords q) g.viewport < visibleArea (g.coords chosen) g.viewport) ∧
      (chosen = preferredOf s.tooltip ∨
        visibleArea (g.coords (preferredOf s.tooltip)) g.viewport
          < visibleArea (g.coords chosen) g.viewport) := by
  have hfind : (candidates (preferredOf s.tooltip)).find?
      (fun q => fits (computeCoords g.rect g.ttRect q) g.viewport) = none := by
    refine List.find?_eq_none.mpr ?_
    intro q hq hfit
    exact hnone q hq ((fits_iff _ _).mp hfit)
  obtain ⟨l1, l2, hl, h1, h2⟩ := bestOverlap_first_max g (preferredOf s.tooltip)
  rw [← choosePlacement_of_find_none hfind] at hl h1 h2
  simp only [area_eq_visibleArea] at h1 h2
  have hall : ∀ q ∈ candidates (preferredOf s.tooltip),
      visibleArea (g.coords q) g.viewport
        ≤ visibleArea (g.coords (choosePlacement g (preferredOf s.tooltip))) g.viewport := by
    intro q hq
    rw [hl] at hq
    rcases List.mem_append.mp hq with hq | hq
    · exact le_of_lt (h1 q hq)
    · rcases List.mem_cons.mp hq with rfl | hq
      · exact le_refl _
      · exact h2 q hq
  refine ⟨choosePlacement g (preferredOf s.tooltip), l1, l2,
    positionTooltip_placement hcur, hl, hall, h1, ?_⟩
  cases l1 with
  | nil =>
    rw [candidates_eq] at hl
    exact Or.inl (List.cons.inj hl).1.symm
  | cons a l1 =>
    have ha : a = preferredOf s.tooltip := by
      rw [candidates_eq] at hl
      exact (List.cons.inj hl).1.symm
    have hlt := h1 a (List.mem_cons_self _ _)
    rw [ha] at hlt
    exact Or.inr hlt

/-- Witness for C3: element 0 of the example document (no `data-placement`, so `top` is
preferred) with the trigger in the corner and no placement fitting. -/
theorem positionTooltip_best_overlap_witness :
    ∃ chosen l1 l2,
      (positionTooltip tightLayout exampleVisible).tooltip.datasetPlacement = some chosen ∧
      candidates (preferredOf exampleVisible.tooltip) = l1 ++ chosen :: l2 ∧
      (∀ q ∈ candidates (preferredOf exampleVisible.tooltip),
        visibleArea (tightLayout.coords q) tightLayout.viewport
          ≤ visibleArea (tightLayout.coords chosen) tightLayout.viewport) ∧
      (∀ q ∈ l1,
        visibleArea (tightLayout.coords q) tightLayout.viewport
          < visibleArea (tightLayout.coords chosen) tightLayout.viewport) ∧
      (chosen = preferredOf exampleVisible.tooltip ∨
        visibleArea (tightLayout.coords (preferredOf exampleVisible.tooltip))
            tightLayout.viewport
          < visibleArea (tightLayout.coords chosen) tightLayout.viewport) :=
  positionTooltip_best_overlap tightLayout exampleVisible 0 (by decide) (by decide!)

/-! ## C4: candidate order and first fit -/

/-- C4. In `positionTooltip` the candidate list is the preferred placement followed by
those of `top`, `right`, `bottom`, `left` that differ from it, without duplicates; when
some candidate fits, the recorded placement is the first candidate in that order whose
rectangle fits (every candidate before it does not fit); if the preferred placement fits
it is chosen; and for preferred placement `top`, when `top` does not fit and `right`
fits, `right` is chosen. -/
theorem positionTooltip_first_fit (g : Layout) (s : State) (e : ElemId) (preferred : String)
    (hcur : s.currentTrigger = some e) (hpref : preferredOf s.tooltip = preferred) :
    (candidates preferred = preferred :: placementNames.filter (fun q => q != preferred) ∧
      (candidates preferred).Nodup) ∧
    ((∃ p ∈ candidates preferred, inViewport (g.coords p) g.viewport) →
      ∃ chosen l1 l2,
        (positionTooltip g s).tooltip.datasetPlacement = some chosen ∧
        candidates preferred = l1 ++ chosen :: l2 ∧
        inViewport (g.coords chosen) g.viewport ∧
        ∀ q ∈ l1, ¬ inViewport (g.coords q) g.viewport) ∧
    (inViewport (g.coords preferred) g.viewport →
      (positionTooltip g s).tooltip.datasetPlacement = some preferred) ∧
    (preferred = "top" → ¬ inViewport (g.coords "top") g.viewport →
      inViewport (g.coords "right") g.viewport →
      (positionTooltip g s).tooltip.datasetPlacement = some "right") := by
  have hne : preferred ≠ "" := hpref ▸ preferredOf_ne_empty s.tooltip
  rw [positionTooltip_placement hcur, hpref]
  refine ⟨⟨candidates_eq preferred, candidates_nodup preferred⟩, ?_, ?_, ?_⟩
  · rintro ⟨p, hp, hfit⟩
    obtain ⟨r, hr⟩ := find_some_of_fit hp hfit
    obtain ⟨hrfit, l1, l2, hl, hl1⟩ := find_first_fit hr
    exact ⟨r, l1, l2, by rw [choosePlacement_of_find_some hne hr], hl, hrfit, hl1⟩
  · intro hfit
    have hfit' : fits (computeCoords g.rect g.ttRect preferred) g.viewport = true :=
      (fits_iff _ _).mpr hfit
    have hfind : (candidates preferred).find?
        (fun q => fits (computeCoords g.rect g.ttRect q) g.viewport) = some preferred := by
      rw [candidates_eq]
      exact List.find?_cons_of_pos _ hfit'
    rw [choosePlacement_of_find_some hne hfind]
  · intro htop hnot hright
    subst htop
    have hnot' : fits (computeCoords g.rect g.ttRect "top") g.viewport = false :=
      Bool.eq_false_iff.mpr (fun h => hnot ((fits_iff _ _).mp h))
    have hright' : fits (computeCoords g.rect g.ttRect "right") g.viewport = true :=
      (fits_iff _ _).mpr hright
    have hc : candidates "top" = ["top", "right", "bottom", "left"] := by decide
    have hfind : (candidates "top").find?
        (fun q => fits (computeCoords g.rect g.ttRect q) g.viewport) = some "right" := by
      rw [hc]
      simp [List.find?_cons, hnot', hright']
    rw [choosePlacement_of_find_some hne hfind]

/-- Witness for C4: the trigger of the example document prefers `top`; in the top-left
corner of the viewport (scenario 2) `top` does not fit and `right` is recorded, in the
middle of the viewport `top` fits and is recorded. -/
theorem positionTooltip_first_fit_witness :
    (candidates "top" = "top" :: placementNames.filter (fun q => q != "top") ∧
      (candidates "top").Nodup) ∧
    (∃ chosen l1 l2,
        (positionTooltip cornerLayout exampleVisible).tooltip.datasetPlacement = some chosen ∧
        candidates "top" = l1 ++ chosen :: l2 ∧
        inViewport (cornerLayout.coords chosen) cornerLayout.viewport ∧
        ∀ q ∈ l1, ¬ inViewport (cornerLayout.coords q) cornerLayout.viewport) ∧
    (positionTooltip roomyLayout exampleVisible).tooltip.datasetPlacement = some "top" ∧
    (positionTooltip cornerLayout exampleVisible).tooltip.datasetPlacement = some "right" :=
  ⟨(positionTooltip_first_fit cornerLayout exampleVisible 0 "top" (by decide) (by decide)).1,
    (positionTooltip_first_fit cornerLayout exampleVisible 0 "top" (by decide) (by decide)).2.1
      ⟨"right", by decide, by decide!⟩,
    (positionTooltip_first_fit roomyLayout exampleVisible 0 "top" (by decide) (by decide)).2.2.1
      (by decide!),
    (positionTooltip_first_fit cornerLayout exampleVisible 0 "top" (by decide) (by decide)).2.2.2
      rfl (by decide!) (by decide!)⟩

/-! ## C2: the clamp of lines 113-115 -/

theorem clampAxis_le_bound (pos : ℤ) (size extent : ℚ) :
    clampAxis pos size extent ≤ dsub (dsub extent size) 6 :=
  min_le_right _ _

/-- The clamped coordinate plus the size exceeds `extent - pad` by no more than the
rounding error of the two subtractions. -/
theorem clampAxis_edge (pos : ℤ) (size extent : ℚ) :
    clampAxis pos size extent + size
      ≤ extent - 6 + roundingSlack (|extent| + |size| + 6) := by
  have h1 := clampAxis_le_bound pos size extent
  have h2 := dsub_dsub_err extent size 6
  have h3 := le_abs_self (dsub (dsub extent size) 6 - (extent - size - 6))
  have hp : |(6 : ℚ)| = 6 := by norm_num
  rw [hp] at h2
  linarith

theorem pad_le_clampAxis (pos : ℤ) (size extent : ℚ) (h : size + 12 ≤ extent) :
    6 ≤ clampAxis pos size extent := by
  have h12 : toDouble 12 = 12 := by decide!
  have h6 : toDouble 6 = 6 := by decide!
  have h1 : (12 : ℚ) ≤ toDouble (extent - size) := by
    rw [← h12]
    exact toDouble_mono (by linarith)
  have h2 : (6 : ℚ) ≤ toDouble (toDouble (extent - size) - 6) := by
    rw [← h6]
    exact toDouble_mono (by linarith)
  unfold clampAxis dsub pad
  exact le_min (le_max_right _ _) h2

/-- A pass with an active trigger writes the clamped coordinates plus the scroll
offset, the sum being a double addition. -/
theorem positionTooltip_style {g : Layout} {s : State} {e : ElemId}
    (h : s.currentTrigger = some e) :
    (positionTooltip g s).tooltip.styleLeft
        = some (dadd (finalLeft g (choosePlacement g (preferredOf s.tooltip))) (num g.scrollX)) ∧
      (positionTooltip g s).tooltip.styleTop
        = some (dadd (finalTop g (choosePlacement g (preferredOf s.tooltip))) (num g.scrollY)) := by
  simp [positionTooltip, h, preferredOf]

theorem computeCoords_size (rect ttRect : DOMRect) (p : String) :
    (computeCoords rect ttRect p).w = num ttRect.width ∧
      (computeCoords rect ttRect p).h = num ttRect.height := by
  unfold computeCoords
  split_ifs <;> exact ⟨rfl, rfl⟩

/-- C2, as the code has it. For every layout and every state with an active trigger, let
`left` and `top` be the viewport-relative coordinates that `positionTooltip` computes
after clamping for the placement it records (the written style values are these plus
the scroll offset).  Then `left` and `top` are at most the bounds
`(viewport.width - width) - 6` and `(viewport.height - height) - 6` that line 114 and
line 115 compute in double arithmetic, so `left + width <= viewport.width - 6` and
`top + height <= viewport.height - 6` hold up to the rounding error of those two
subtractions, at most `2^-51 * (viewport extent + size + 6) + 2^-1072`; and `left >= 6`
holds when `width + 12 <= viewport.width`, `top >= 6` when
`height + 12 <= viewport.height`. -/
theorem positionTooltip_clamped (g : Layout) (s : State) (e : ElemId)
    (hcur : s.currentTrigger = some e) :
    ∃ chosen : String,
      (positionTooltip g s).tooltip.datasetPlacement = some chosen ∧
      (positionTooltip g s).tooltip.styleLeft
        = some (dadd (finalLeft g chosen) (num g.scrollX)) ∧
      (positionTooltip g s).tooltip.styleTop
        = some (dadd (finalTop g chosen) (num g.scrollY)) ∧
      finalLeft g chosen ≤ dsub (dsub g.viewport.width (num g.ttRect.width)) 6 ∧
      finalTop g chosen ≤ dsub (dsub g.viewport.height (num g.ttRect.height)) 6 ∧
      finalLeft g chosen + num g.ttRect.width ≤ g.viewport.width - 6
        + roundingSlack (|g.viewport.width| + |num g.ttRect.width| + 6) ∧
      finalTop g chosen + num g.ttRect.height ≤ g.viewport.height - 6
        + roundingSlack (|g.viewport.height| + |num g.ttRect.height| + 6) ∧
      (num g.ttRect.width + 12 ≤ g.viewport.width → 6 ≤ finalLeft g chosen) ∧
      (num g.ttRect.height + 12 ≤ g.viewport.height → 6 ≤ finalTop g chosen) := by
  obtain ⟨hl, ht⟩ := positionTooltip_style (g := g) hcur
  refine ⟨choosePlacement g (preferredOf s.tooltip), positionTooltip_placement hcur, hl, ht,
    ?_, ?_, ?_, ?_, ?_, ?_⟩
  · rw [← (computeCoords_size g.rect g.ttRect (choosePlacement g (preferredOf s.tooltip))).1]
    exact clampAxis_le_bound _ _ _
  · rw [← (computeCoords_size g.rect g.ttRect (choosePlacement g (preferredOf s.tooltip))).2]
    exact clampAxis_le_bound _ _ _
  · rw [← (computeCoords_size g.rect g.ttRect (choosePlacement g (preferredOf s.tooltip))).1]
    exact clampAxis_edge _ _ _
  · rw [← (computeCoords_size g.rect g.ttRect (choosePlacement g (preferredOf s.tooltip))).2]
    exact clampAxis_edge _ _ _
  · intro hw
    rw [← (computeCoords_size g.rect g.ttRect (choosePlacement g (preferredOf s.tooltip))).1]
      at hw
    exact pad_le_clampAxis _ _ _ hw
  · intro hh
    rw [← (computeCoords_size g.rect g.ttRect (choosePlacement g (preferredOf s.tooltip))).2]
      at hh
    exact pad_le_clampAxis _ _ _ hh

/-- Witness for C2 as the code has it: the example trigger in the corner layout, where
the 100 x 30 tooltip leaves room for the padding on both axes. -/
theorem positionTooltip_clamped_witness :
    ∃ chosen : String,
      (positionTooltip cornerLayout exampleVisible).tooltip.datasetPlacement = some chosen ∧
      (positionTooltip cornerLayout exampleVisible).tooltip.styleLeft
        = some (dadd (finalLeft cornerLayout chosen) (num cornerLayout.scrollX)) ∧
      (positionTooltip cornerLayout exampleVisible).tooltip.styleTop
        = some (dadd (finalTop cornerLayout chosen) (num cornerLayout.scrollY)) ∧
      finalLeft cornerLayout chosen
        ≤ dsub (dsub cornerLayout.viewport.width (num cornerLayout.ttRect.width)) 6 ∧
      finalTop cornerLayout chosen
        ≤ dsub (dsub cornerLayout.viewport.height (num cornerLayout.ttRect.height)) 6 ∧
      finalLeft cornerLayout chosen + num cornerLayout.ttRect.width
        ≤ cornerLayout.viewport.width - 6
          + roundingSlack (|cornerLayout.viewport.width| + |num cornerLayout.ttRect.width| + 6) ∧
      finalTop cornerLayout chosen + num cornerLayout.ttRect.height
        ≤ cornerLayout.viewport.height - 6
          + roundingSlack
            (|cornerLayout.viewport.height| + |num cornerLayout.ttRect.height| + 6) ∧
      6 ≤ finalLeft cornerLayout chosen ∧ 6 ≤ finalTop cornerLayout chosen :=
  match positionTooltip_clamped cornerLayout exampleVisible 0 (by decide) with
  | ⟨chosen, h0, h1, h2, h3, h4, h5, h6, h7, h8⟩ =>
    ⟨chosen, h0, h1, h2, h3, h4, h5, h6, h7 (by decide!), h8 (by decide!)⟩

/-- Counterexample to C2 as stated: in a viewport 100 px wide with a tooltip 200 px wide
the pass records `top`, and the clamped `left` for it is `-106`, not at least 6; `-106`
is also the value written. -/
theorem positionTooltip_clamp_counterexample :
    (positionTooltip narrowLayout exampleVisible).tooltip.datasetPlacement = some "top" ∧
      finalLeft narrowLayout "top" = -106 ∧
      (positionTooltip narrowLayout exampleVisible).tooltip.styleLeft = some (-106) ∧
      ¬ (6 : ℚ) ≤ finalLeft narrowLayout "top" := by
  decide!

/-! ## Attributes -/

theorem lookup_map_set (name value : String) (l : List (String × String))
    (h : (l.lookup name).isSome = true) :
    (l.map (fun kv => if kv.1 = name then (name, value) else kv)).lookup name = some value := by
  induction l with
  | nil => simp at h
  | cons kv l ih =>
    obtain ⟨k, v⟩ := kv
    by_cases hk : k = name
    · subst hk
      simp [List.lookup_cons]
    · have hb : (name == k) = false := by simpa [beq_eq_false_iff_ne] using Ne.symm hk
      simp only [List.lookup_cons, hb] at h
      simp [List.lookup_cons, hk, hb, ih h]

theorem lookup_append_new (name value : String) (l : List (String × String))
    (h : (l.lookup name).isSome = false) :
    (l ++ [(name, value)]).lookup name = some value := by
  induction l with
  | nil => simp [List.lookup_cons]
  | cons kv l ih =>
    obtain ⟨k, v⟩ := kv
    by_cases hk : k = name
    · subst hk
      simp [List.lookup_cons] at h
    · have hb : (name == k) = false := by simpa [beq_eq_false_iff_ne] using Ne.symm hk
      simp only [List.lookup_cons, hb] at h
      simp [List.lookup_cons, hb, ih h]

theorem lookup_filter_ne (name : String) (l : List (String × String)) :
    (l.filter (fun kv => kv.1 != name)).lookup name = none := by
  induction l with
  | nil => rfl
  | cons kv l ih =>
    obtain ⟨k, v⟩ := kv
    by_cases hk : k = name
    · subst hk
      simp [List.filter_cons, ih]
    · have hb : (name == k) = false := by simpa [beq_eq_false_iff_ne] using Ne.symm hk
      simp [List.filter_cons, hk, List.lookup_cons, hb, ih]

theorem getAttribute_setAttribute (el : Element) (name value : String) :
    (el.setAttribute name value).getAttribute name = some value := by
  unfold Element.setAttribute
  by_cases h : el.hasAttribute name = true
  · simp only [h, if_true, Element.getAttribute]
    exact lookup_map_set name value el.attrs h
  · have h' : el.hasAttribute name = false := by simpa using h
    simp only [h', Element.getAttribute]
    exact lookup_append_new name value el.attrs h'

theorem getAttribute_removeAttribute (el : Element) (name : String) :
    (el.removeAttribute name).getAttribute name = none :=
  lookup_filter_ne name el.attrs

/-! ## Lifecycle -/

theorem hideTooltip_currentTrigger (s : State) : (hideTooltip s).currentTrigger = none := by
  unfold hideTooltip
  cases h : s.currentTrigger <;> simp [h]

theorem hideTooltip_id (s : State) : (hideTooltip s).tooltip.id = s.tooltip.id := by
  unfold hideTooltip
  cases h : s.currentTrigger <;> simp

theorem hideTooltip_dom_of_ne (s : State) (e : ElemId) (h : s.currentTrigger ≠ some e) :
    (hideTooltip s).dom e = s.dom e := by
  unfold hideTooltip
  cases ht : s.currentTrigger with
  | none => simp
  | some t =>
    have hne : e ≠ t := fun he => h (by rw [ht, he])
    simp [Function.update_noteq hne]

/-- What line 33 leaves: the tooltip id and the element `el` are untouched, and the
active trigger is empty or `el`. -/
theorem line33_facts (s : State) (el : ElemId) :
    (if s.currentTrigger.isSome && s.currentTrigger != some el then hideTooltip s else s).tooltip.id
        = s.tooltip.id ∧
      (if s.currentTrigger.isSome && s.currentTrigger != some el then hideTooltip s else s).dom el
        = s.dom el ∧
      ((if s.currentTrigger.isSome && s.currentTrigger != some el then hideTooltip s
          else s).currentTrigger = none ∨
        (if s.currentTrigger.isSome && s.currentTrigger != some el then hideTooltip s
          else s).currentTrigger = some el) := by
  by_cases h : (s.currentTrigger.isSome && s.currentTrigger != some el) = true
  · rw [if_pos h]
    have hne : s.currentTrigger ≠ some el := by
      simp only [Bool.and_eq_true, bne_iff_ne] at h
      exact h.2
    exact ⟨hideTooltip_id s, hideTooltip_dom_of_ne s el hne, Or.inl (hideTooltip_currentTrigger s)⟩
  · rw [if_neg h]
    refine ⟨rfl, rfl, ?_⟩
    cases hc : s.currentTrigger with
    | none => exact Or.inl rfl
    | some t =>
      right
      simp only [hc, Option.isSome_some, Bool.true_and, bne_iff_ne, ne_eq, not_not] at h
      exact h

theorem showTooltipFor_fields (s : State) (el : ElemId)
    (h : truthy ((s.dom el).getAttribute TOOLTIP_ATTR) = true) :
    (showTooltipFor (.element el) s).tooltip.textContent
        = orElse ((s.dom el).getAttribute TOOLTIP_ATTR) "" ∧
      (showTooltipFor (.element el) s).tooltip.datasetPlacement
        = some (orElse ((s.dom el).getAttribute PLACEMENT_ATTR) DEFAULT_PLACEMENT) ∧
      (showTooltipFor (.element el) s).tooltip.ariaHidden = "false" ∧
      (showTooltipFor (.element el) s).currentTrigger = some el ∧
      (showTooltipFor (.element el) s).tooltip.id = s.tooltip.id ∧
      (showTooltipFor (.element el) s).dom el
        = (s.dom el).setAttribute "aria-describedby" s.tooltip.id := by
  obtain ⟨h1, h2, -⟩ := line33_facts s el
  simp only [showTooltipFor, h, Bool.not_true, Bool.false_eq_true, if_false, requestAnimationFrame]
  refine ⟨trivial, ?_, trivial, trivial, h1, ?_⟩
  · rw [h2]
  · rw [Function.update_same, h1, h2]
theorem showTooltipFor_of_not_truthy (s : State) (el : ElemId)
    (h : truthy ((s.dom el).getAttribute TOOLTIP_ATTR) = false) :
    showTooltipFor (.element el) s = s := by
  simp [showTooltipFor, h]

theorem showTooltipFor_dom_of_ne (s : State) (el e : ElemId) (hne : e ≠ el)
    (h : truthy ((s.dom el).getAttribute TOOLTIP_ATTR) = true) :
    (showTooltipFor (.element el) s).dom e
      = (if s.currentTrigger.isSome && s.currentTrigger != some el then hideTooltip s
          else s).dom e := by
  simp only [showTooltipFor, h, Bool.not_true, Bool.false_eq_true, if_false,
    requestAnimationFrame]
  exact Function.update_noteq hne _ _

theorem positionTooltip_untouched (g : Layout) (s : State) :
    (positionTooltip g s).currentTrigger = s.currentTrigger ∧
      (positionTooltip g s).dom = s.dom ∧
      (positionTooltip g s).tooltip.id = s.tooltip.id ∧
      (positionTooltip g s).tooltip.ariaHidden = s.tooltip.ariaHidden := by
  unfold positionTooltip
  cases h : s.currentTrigger <;> simp [h]

/-- Every call keeps "there is an active trigger exactly when the tooltip is visible". -/
theorem step_keeps_visibility_invariant (s : State) (op : Op)
    (h : s.currentTrigger ≠ none ↔ s.visible) :
    (step s op).currentTrigger ≠ none ↔ (step s op).visible := by
  cases op with
  | showTooltipFor n =>
    cases n with
    | other => exact h
    | element el =>
      by_cases ht : truthy ((s.dom el).getAttribute TOOLTIP_ATTR) = true
      · obtain ⟨-, -, h3, h4, -, -⟩ := showTooltipFor_fields s el ht
        simp [step, State.visible, h3, h4]
      · have ht' : truthy ((s.dom el).getAttribute TOOLTIP_ATTR) = false := by simpa using ht
        simp only [step, showTooltipFor_of_not_truthy s el ht']
        exact h
  | hideTooltip =>
    simp only [step]
    cases hc : s.currentTrigger with
    | none =>
      have : hideTooltip s = s := by simp [hideTooltip, hc]
      rw [this, hc]
      rw [hc] at h
      exact h
    | some t =>
      simp [hideTooltip, hc, State.visible]
  | positionTooltip g =>
    obtain ⟨h1, -, -, h4⟩ := positionTooltip_untouched g s
    simp only [step, State.visible, h1, h4]
    exact h

theorem run_induction (P : State → Prop) (hstep : ∀ s op, P s → P (step s op))
    (ops : List Op) (s : State) (h : P s) : P (run ops s) := by
  induction ops generalizing s with
  | nil => exact h
  | cons op ops ih => exact ih (step s op) (hstep s op h)

/-! ## C6: the effects of `showTooltipFor` -/

/-- C6. For every element `el` whose `data-tooltip` text is non-empty, and from every
state, `showTooltipFor(el)` leaves the tooltip text equal to that description, the
surface's placement equal to the element's `data-placement` attribute, or `top` when it
has none (the code's `||`: an absent or empty attribute gives `top`), `aria-hidden`
equal to `"false"`, the active trigger equal to `el`, and `el`'s `aria-describedby` equal
to the tooltip's id. -/
theorem showTooltipFor_effects (s : State) (el : ElemId) (text : String)
    (htext : (s.dom el).getAttribute TOOLTIP_ATTR = some text) (hne : text ≠ "") :
    (showTooltipFor (.element el) s).tooltip.textContent = text ∧
      (showTooltipFor (.element el) s).tooltip.datasetPlacement
        = some (orElse ((s.dom el).getAttribute PLACEMENT_ATTR) "top") ∧
      ((s.dom el).getAttribute PLACEMENT_ATTR = none →
        (showTooltipFor (.element el) s).tooltip.datasetPlacement = some "top") ∧
      (∀ p, (s.dom el).getAttribute PLACEMENT_ATTR = some p → p ≠ "" →
        (showTooltipFor (.element el) s).tooltip.datasetPlacement = some p) ∧
      (showTooltipFor (.element el) s).tooltip.ariaHidden = "false" ∧
      (showTooltipFor (.element el) s).currentTrigger = some el ∧
      ((showTooltipFor (.element el) s).dom el).getAttribute "aria-describedby"
        = some (showTooltipFor (.element el) s).tooltip.id := by
  have ht : truthy ((s.dom el).getAttribute TOOLTIP_ATTR) = true := by
    rw [htext]; exact truthy_some_iff.mpr hne
  obtain ⟨h1, h2, h3, h4, h5, h6⟩ := showTooltipFor_fields s el ht
  refine ⟨?_, h2, ?_, ?_, h3, h4, ?_⟩
  · rw [h1, htext]
    simp [orElse, hne]
  · intro hp
    rw [h2, hp]
    rfl
  · intro p hp hpne
    rw [h2, hp]
    simp [orElse, hpne]
  · rw [h5, h6]
    exact getAttribute_setAttribute _ _ _

/-- Witness for C6 (scenario 1): the pointer enters the element with
`data-tooltip="Save file"` and no placement attribute. -/
theorem showTooltipFor_effects_witness :
    (showTooltipFor (.element 0) exampleInit).tooltip.textContent = "Save file" ∧
      (showTooltipFor (.element 0) exampleInit).tooltip.datasetPlacement
        = some (orElse ((exampleInit.dom 0).getAttribute PLACEMENT_ATTR) "top") ∧
      (showTooltipFor (.element 0) exampleInit).tooltip.datasetPlacement = some "top" ∧
      (∀ p, (exampleInit.dom 0).getAttribute PLACEMENT_ATTR = some p → p ≠ "" →
        (showTooltipFor (.element 0) exampleInit).tooltip.datasetPlacement = some p) ∧
      (showTooltipFor (.element 0) exampleInit).tooltip.ariaHidden = "false" ∧
      (showTooltipFor (.element 0) exampleInit).currentTrigger = some 0 ∧
      ((showTooltipFor (.element 0) exampleInit).dom 0).getAttribute "aria-describedby"
        = some (showTooltipFor (.element 0) exampleInit).tooltip.id :=
  match showTooltipFor_effects exampleInit 0 "Save file" (by decide) (by decide) with
  | ⟨h1, h2, h3, h4, h5, h6, h7⟩ => ⟨h1, h2, h3 (by decide), h4, h5, h6, h7⟩

/-! ## C7: the placement taken from the trigger -/

/-- C7, as the code has it. For every trigger with non-empty description whose
`data-placement` attribute is absent or empty, `showTooltipFor` records `top` on the
surface; a non-empty `data-placement` value is recorded as it is, whether or not it is
one of `top`, `right`, `bottom`, `left`; and `computeCoords` gives a name other than
`top`, `bottom` and `left` the rectangle of `right`. -/
theorem showTooltipFor_placement (s : State) (el : ElemId) (text : String)
    (htext : (s.dom el).getAttribute TOOLTIP_ATTR = some text) (hne : text ≠ "") :
    (((s.dom el).getAttribute PLACEMENT_ATTR = none ∨
        (s.dom el).getAttribute PLACEMENT_ATTR = some "") →
      (showTooltipFor (.element el) s).tooltip.datasetPlacement = some "top") ∧
    (∀ p, (s.dom el).getAttribute PLACEMENT_ATTR = some p → p ≠ "" →
      (showTooltipFor (.element el) s).tooltip.datasetPlacement = some p) ∧
    (∀ rect ttRect p, p ≠ "top" → p ≠ "bottom" → p ≠ "left" →
      computeCoords rect ttRect p = computeCoords rect ttRect "right") := by
  have ht : truthy ((s.dom el).getAttribute TOOLTIP_ATTR) = true := by
    rw [htext]; exact truthy_some_iff.mpr hne
  obtain ⟨-, h2, -⟩ := showTooltipFor_fields s el ht
  refine ⟨?_, ?_, ?_⟩
  · rintro (hp | hp) <;> rw [h2, hp] <;> rfl
  · intro p hp hpne
    rw [h2, hp]
    simp [orElse, hpne]
  · intro rect ttRect p h1 h2 h3
    simp [computeCoords, h1, h2, h3]

/-- Witness for C7 as the code has it: element 0 of the example document has no
`data-placement`, element 2 has `data-placement="diagonal"`. -/
theorem showTooltipFor_placement_witness :
    (showTooltipFor (.element 0) exampleInit).tooltip.datasetPlacement = some "top" ∧
    (showTooltipFor (.element 2) exampleInit).tooltip.datasetPlacement = some "diagonal" ∧
    (∀ rect ttRect p, p ≠ "top" → p ≠ "bottom" → p ≠ "left" →
      computeCoords rect ttRect p = computeCoords rect ttRect "right") :=
  ⟨(showTooltipFor_placement exampleInit 0 "Save file" (by decide) (by decide)).1
      (Or.inl (by decide)),
    (showTooltipFor_placement exampleInit 2 "Close" (by decide) (by decide)).2.1
      "diagonal" (by decide) (by decide),
    (showTooltipFor_placement exampleInit 0 "Save file" (by decide) (by decide)).2.2⟩

/-- Counterexample to C7 as stated: element 2 of the example document has a non-empty
description and `data-placement="diagonal"`, which is not one of the four names, and
after `showTooltipFor` the surface's placement is `diagonal`, not `top`. -/
theorem showTooltipFor_placement_counterexample :
    (exampleInit.dom 2).getAttribute TOOLTIP_ATTR = some "Close" ∧
      (exampleInit.dom 2).getAttribute PLACEMENT_ATTR = some "diagonal" ∧
      "diagonal" ∉ placementNames ∧
      (showTooltipFor (.element 2) exampleInit).tooltip.datasetPlacement ≠ some "top" ∧
      ¬ ∃ p ∈ placementNames,
        (showTooltipFor (.element 2) exampleInit).tooltip.datasetPlacement = some p := by
  decide

/-! ## C8: active trigger if and only if visible -/

/-- C8. In every state reached from the start-up state (any document, any tooltip id) by
any sequence of `showTooltipFor`, `hideTooltip` and `positionTooltip` calls, the active
trigger reference is non-empty if and only if the surface's `aria-hidden` is `"false"`. -/
theorem reachable_active_iff_visible (dom : ElemId → Element) (id : String) (ops : List Op) :
    (run ops (init dom id)).currentTrigger ≠ none ↔
      (run ops (init dom id)).tooltip.ariaHidden = "false" :=
  run_induction (fun s => s.currentTrigger ≠ none ↔ s.visible) step_keeps_visibility_invariant ops
    (init dom id) (by simp [init, State.visible])

/-! ## C10: show, then hide -/

/-- C10. For every element `el` with non-empty description text and from every state,
`showTooltipFor(el)` followed immediately by `hideTooltip()` leaves the active trigger
reference empty, the tooltip hidden (`aria-hidden` is `"true"`, state `hidden`) and `el`
without an `aria-describedby` attribute. -/
theorem show_then_hide (s : State) (el : ElemId) (text : String)
    (htext : (s.dom el).getAttribute TOOLTIP_ATTR = some text) (hne : text ≠ "") :
    (hideTooltip (showTooltipFor (.element el) s)).currentTrigger = none ∧
      (hideTooltip (showTooltipFor (.element el) s)).tooltip.ariaHidden = "true" ∧
      (hideTooltip (showTooltipFor (.element el) s)).tooltip.datasetState = some "hidden" ∧
      ((hideTooltip (showTooltipFor (.element el) s)).dom el).getAttribute "aria-describedby"
        = none ∧
      ((hideTooltip (showTooltipFor (.element el) s)).dom el).hasAttribute "aria-describedby"
        = false := by
  have ht : truthy ((s.dom el).getAttribute TOOLTIP_ATTR) = true := by
    rw [htext]; exact truthy_some_iff.mpr hne
  obtain ⟨-, -, -, h4, -, -⟩ := showTooltipFor_fields s el ht
  have hattr : ((hideTooltip (showTooltipFor (.element el) s)).dom el).getAttribute
      "aria-describedby" = none := by
    simp only [hideTooltip, h4, Function.update_same]
    exact getAttribute_removeAttribute _ _
  refine ⟨hideTooltip_currentTrigger _, ?_, ?_, hattr, ?_⟩
  · simp [hideTooltip, h4]
  · simp [hideTooltip, h4]
  · simp [Element.hasAttribute, hattr]

/-- Witness for C10: show and hide on element 1 of the example document while element 0
is active. -/
theorem show_then_hide_witness :
    (hideTooltip (showTooltipFor (.element 1) exampleVisible)).currentTrigger = none ∧
      (hideTooltip (showTooltipFor (.element 1) exampleVisible)).tooltip.ariaHidden = "true" ∧
      (hideTooltip (showTooltipFor (.element 1) exampleVisible)).tooltip.datasetState
        = some "hidden" ∧
      ((hideTooltip (showTooltipFor (.element 1) exampleVisible)).dom 1).getAttribute
        "aria-describedby" = none ∧
      ((hideTooltip (showTooltipFor (.element 1) exampleVisible)).dom 1).hasAttribute
        "aria-describedby" = false :=
  show_then_hide exampleVisible 1 "Open file" (by decide) (by decide)

/-! ## C9: the accessible association follows the active trigger -/

theorem hideTooltip_describedBy (s : State)
    (h : ∀ e, s.describedBy e ↔ s.currentTrigger = some e) (e : ElemId) :
    ¬ (hideTooltip s).describedBy e := by
  cases hc : s.currentTrigger with
  | none =>
    have hs : hideTooltip s = s := by simp [hideTooltip, hc]
    rw [hs, h e, hc]
    simp
  | some t =>
    by_cases het : e = t
    · subst het
      simp only [State.describedBy, hideTooltip, hc, Function.update_same]
      rw [getAttribute_removeAttribute]
      simp
    · have hd : (hideTooltip s).dom e = s.dom e :=
        hideTooltip_dom_of_ne s e (by rw [hc]; exact fun h => het (Option.some.inj h).symm)
      have : ¬ s.describedBy e := by
        rw [h e, hc]
        exact fun h => het (Option.some.inj h).symm
      simpa [State.describedBy, hd, hideTooltip_id] using this

theorem showTooltipFor_describedBy (s : State) (el : ElemId)
    (h : ∀ e, s.describedBy e ↔ s.currentTrigger = some e)
    (ht : truthy ((s.dom el).getAttribute TOOLTIP_ATTR) = true) (e : ElemId) :
    (showTooltipFor (.element el) s).describedBy e ↔ e = el := by
  obtain ⟨-, -, -, -, h5, h6⟩ := showTooltipFor_fields s el ht
  by_cases hel : e = el
  · subst hel
    simp only [State.describedBy, h5, h6, getAttribute_setAttribute]
  · simp only [hel, iff_false]
    have hd := showTooltipFor_dom_of_ne s el e hel ht
    unfold State.describedBy
    rw [hd, h5]
    by_cases hcond : (s.currentTrigger.isSome && s.currentTrigger != some el) = true
    · rw [if_pos hcond]
      have := hideTooltip_describedBy s h e
      simpa [State.describedBy, hideTooltip_id] using this
    · rw [if_neg hcond]
      have hcur : s.currentTrigger ≠ some e := by
        intro hc
        apply hcond
        simp only [hc, Option.isSome_some, Bool.true_and, bne_iff_ne, ne_eq]
        exact fun h => hel (Option.some.inj h)
      exact fun hdesc => hcur ((h e).mp hdesc)

/-- Every call keeps "an element carries the association exactly when it is the active
trigger". -/
theorem step_keeps_association_invariant (s : State) (op : Op)
    (h : ∀ e, s.describedBy e ↔ s.currentTrigger = some e) :
    ∀ e, (step s op).describedBy e ↔ (step s op).currentTrigger = some e := by
  intro e
  cases op with
  | showTooltipFor n =>
    cases n with
    | other => exact h e
    | element el =>
      by_cases ht : truthy ((s.dom el).getAttribute TOOLTIP_ATTR) = true
      · obtain ⟨-, -, -, h4, -, -⟩ := showTooltipFor_fields s el ht
        simp only [step]
        rw [showTooltipFor_describedBy s el h ht e, h4]
        exact ⟨fun h => by rw [h], fun h => (Option.some.inj h).symm⟩
      · have ht' : truthy ((s.dom el).getAttribute TOOLTIP_ATTR) = false := by simpa using ht
        simp only [step, showTooltipFor_of_not_truthy s el ht']
        exact h e
  | hideTooltip =>
    simp only [step, hideTooltip_currentTrigger]
    exact ⟨fun hd => absurd hd (hideTooltip_describedBy s h e), fun hc => by cases hc⟩
  | positionTooltip g =>
    obtain ⟨h1, h2, h3, -⟩ := positionTooltip_untouched g s
    simp only [step, State.describedBy, h1, h2, h3]
    exact h e

/-- C9. Starting from a state with no active trigger in which no element carries the
association (as at start-up), after any sequence of `showTooltipFor` and `hideTooltip`
calls (positioning passes may be interleaved) an element carries `aria-describedby`
referencing the tooltip if and only if it is the active trigger.  In particular, when `a`
is active and `showTooltipFor(b)` is called for a trigger `b` different from `a` (`b`
has non-empty description text, so the show is not ignored), afterwards `a` no longer
carries the association and `b` does; and at most one element carries it at any time. -/
theorem describedBy_iff_active (s0 : State) (hcur : s0.currentTrigger = none)
    (hnone : ∀ e, ¬ s0.describedBy e) (ops : List Op) :
    (∀ e, (run ops s0).describedBy e ↔ (run ops s0).currentTrigger = some e) ∧
    (∀ a b text, a ≠ b → (run ops s0).currentTrigger = some a →
      ((run ops s0).dom b).getAttribute TOOLTIP_ATTR = some text → text ≠ "" →
      ¬ (showTooltipFor (.element b) (run ops s0)).describedBy a ∧
        (showTooltipFor (.element b) (run ops s0)).describedBy b) ∧
    (∀ e1 e2, (run ops s0).describedBy e1 → (run ops s0).describedBy e2 → e1 = e2) := by
  have hinv : ∀ e, (run ops s0).describedBy e ↔ (run ops s0).currentTrigger = some e :=
    run_induction (fun s => ∀ e, s.describedBy e ↔ s.currentTrigger = some e)
      step_keeps_association_invariant ops s0
      (fun e => ⟨fun h => absurd h (hnone e), fun h => by rw [hcur] at h; cases h⟩)
  refine ⟨hinv, ?_, ?_⟩
  · intro a b text hab _ htext hne
    have ht : truthy (((run ops s0).dom b).getAttribute TOOLTIP_ATTR) = true := by
      rw [htext]; exact truthy_some_iff.mpr hne
    exact ⟨fun h => hab ((showTooltipFor_describedBy _ b hinv ht a).mp h),
      (showTooltipFor_describedBy _ b hinv ht b).mpr rfl⟩
  · intro e1 e2 h1 h2
    have h1' := (hinv e1).mp h1
    have h2' := (hinv e2).mp h2
    rw [h1'] at h2'
    exact Option.some.inj h2'

theorem exampleInit_not_describedBy (e : ElemId) : ¬ exampleInit.describedBy e := by
  unfold State.describedBy exampleInit init exampleDom Element.getAttribute
  dsimp only
  split_ifs <;> decide

/-- Witness for C9: on the example document, after the pointer entered element 0, the
association is on the active trigger only, and showing element 1 moves it from element 0
to element 1. -/
theorem describedBy_iff_active_witness :
    (∀ e, (run [.showTooltipFor (.element 0)] exampleInit).describedBy e ↔
      (run [.showTooltipFor (.element 0)] exampleInit).currentTrigger = some e) ∧
    (¬ (showTooltipFor (.element 1)
          (run [.showTooltipFor (.element 0)] exampleInit)).describedBy 0 ∧
      (showTooltipFor (.element 1)
          (run [.showTooltipFor (.element 0)] exampleInit)).describedBy 1) ∧
    (∀ e1 e2, (run [.showTooltipFor (.element 0)] exampleInit).describedBy e1 →
      (run [.showTooltipFor (.element 0)] exampleInit).describedBy e2 → e1 = e2) :=
  match describedBy_iff_active exampleInit rfl exampleInit_not_describedBy
      [.showTooltipFor (.element 0)] with
  | ⟨h1, h2, h3⟩ => ⟨h1, h2 0 1 "Open file" (by decide) (by decide) (by decide) (by decide), h3⟩

/-! ## C5: what a later positioning pass takes as the preferred placement -/

/-- C5, the code at the failing input.  Element 0 of the example document has no
`data-placement`, so its preferred placement is `top`.  A first pass with the trigger in
the top-left corner records `right`; after the page is scrolled so that every placement
fits, the next pass reads the recorded `right` as preferred and records `right` again,
whereas a first pass after show with that same layout records `top`. -/
theorem positionTooltip_preference_overwritten :
    (exampleDom 0).getAttribute PLACEMENT_ATTR = none ∧
      exampleVisible.tooltip.datasetPlacement = some "top" ∧
      (positionTooltip cornerLayout exampleVisible).tooltip.datasetPlacement = some "right" ∧
      (positionTooltip roomyLayout
        (positionTooltip cornerLayout exampleVisible)).tooltip.datasetPlacement
          = some "right" ∧
      (positionTooltip roomyLayout exampleVisible).tooltip.datasetPlacement = some "top" := by
  decide!

/-! ## C11: a show request with nothing to show -/

/-- C11. `showTooltipFor` called with a value that is not an element, or with an element
whose `data-tooltip` attribute is absent or empty, returns the state it was given, in
every state: the active trigger, the tooltip's text, placement and visibility, every
element's attributes and the queue of scheduled positioning passes are all unchanged. -/
theorem showTooltipFor_ignored (s : State) (n : Node)
    (h : n = .other ∨ ∃ el, n = .element el ∧
      ((s.dom el).getAttribute TOOLTIP_ATTR = none ∨
        (s.dom el).getAttribute TOOLTIP_ATTR = some "")) :
    showTooltipFor n s = s := by
  rcases h with rfl | ⟨el, rfl, h | h⟩
  · rfl
  · exact showTooltipFor_of_not_truthy s el (by rw [h]; rfl)
  · exact showTooltipFor_of_not_truthy s el (by rw [h]; rfl)

/-- Witness for C11: element 3 of the example document has no `data-tooltip`; showing
it while element 0 is active changes nothing. -/
theorem showTooltipFor_ignored_witness :
    showTooltipFor (.element 3) exampleVisible = exampleVisible :=
  showTooltipFor_ignored exampleVisible (.element 3) (Or.inr ⟨3, rfl, Or.inl (by decide)⟩)

/-! ## C12: the Escape key -/

/-- C12. For every state with an active trigger `e` (a visible tooltip), the `keydown`
listener on an event whose key is `Escape` leaves the active trigger empty, `aria-hidden`
equal to `"true"` and `e` without `aria-describedby`, whatever the event target is; on an
event with any other key it returns the state unchanged. -/
theorem onKeyDown_escape (s : State) (e : ElemId) (ev : KeyboardEvent)
    (hcur : s.currentTrigger = some e) :
    (ev.key = "Escape" →
      (onKeyDown ev s).currentTrigger = none ∧
      (onKeyDown ev s).tooltip.ariaHidden = "true" ∧
      ((onKeyDown ev s).dom e).getAttribute "aria-describedby" = none) ∧
    (ev.key ≠ "Escape" → onKeyDown ev s = s) := by
  constructor
  · intro hkey
    simp only [onKeyDown, hkey, if_true]
    refine ⟨hideTooltip_currentTrigger s, ?_, ?_⟩
    · simp [hideTooltip, hcur]
    · simp only [hideTooltip, hcur, Function.update_same]
      exact getAttribute_removeAttribute _ _
  · intro hkey
    simp [onKeyDown, hkey]

/-- Witness for C12 (scenario 3): with element 0 of the example document active, Escape
pressed while the focus is on element 1 hides the tooltip, and the key `a` changes
nothing. -/
theorem onKeyDown_escape_witness :
    ((onKeyDown { key := "Escape", target := .element 1 } exampleVisible).currentTrigger = none ∧
      (onKeyDown { key := "Escape", target := .element 1 } exampleVisible).tooltip.ariaHidden
        = "true" ∧
      ((onKeyDown { key := "Escape", target := .element 1 } exampleVisible).dom 0).getAttribute
        "aria-describedby" = none) ∧
    onKeyDown { key := "a", target := .element 1 } exampleVisible = exampleVisible :=
  ⟨(onKeyDown_escape exampleVisible 0 { key := "Escape", target := .element 1 }
      (by decide)).1 (by decide),
    (onKeyDown_escape exampleVisible 0 { key := "a", target := .element 1 }
      (by decide)).2 (by decide)⟩

/-! ## C13: a positioning pass without an active trigger -/

theorem foldl_runCallback_of_no_trigger (g : Layout) (l : List FrameCallback) (s : State)
    (h : s.currentTrigger = none) : l.foldl (runCallback g) s = s := by
  induction l with
  | nil => rfl
  | cons cb l ih =>
    cases cb
    have hs : runCallback g s .positionTooltip = s := by simp [runCallback, positionTooltip, h]
    rw [List.foldl_cons, hs, ih]

/-- C13. A positioning pass that runs when there is no active trigger returns the state
unchanged (coordinates, placement, visibility and display included); and when the
animation frame fires in such a state, every queued pass does nothing: only the queue is
emptied.  This covers a pass scheduled by show and fired after `hideTooltip` has run. -/
theorem positionTooltip_without_trigger (g : Layout) (s : State)
    (h : s.currentTrigger = none) :
    positionTooltip g s = s ∧ fireFrame g s = { s with frames := [] } := by
  constructor
  · simp [positionTooltip, h]
  · exact foldl_runCallback_of_no_trigger g s.frames { s with frames := [] } h

/-- Witness for C13: element 0 of the example document is shown and hidden again before
the frame fires; the pass that show scheduled is still queued and does nothing. -/
theorem positionTooltip_without_trigger_witness :
    (hideTooltip exampleVisible).frames = [.positionTooltip] ∧
      positionTooltip cornerLayout (hideTooltip exampleVisible) = hideTooltip exampleVisible ∧
      fireFrame cornerLayout (hideTooltip exampleVisible)
        = { hideTooltip exampleVisible with frames := [] } :=
  ⟨by decide, positionTooltip_without_trigger cornerLayout (hideTooltip exampleVisible)
    (by decide)⟩

/-! ## C20: a second pass under the same layout -/

theorem choosePlacement_mem (g : Layout) {p : String} (hp : p ≠ "") :
    choosePlacement g p ∈ candidates p := by
  cases hf : (candidates p).find?
      (fun q => fits (computeCoords g.rect g.ttRect q) g.viewport) with
  | some r =>
    rw [choosePlacement_of_find_some hp hf]
    exact List.mem_of_find?_eq_some hf
  | none =>
    rw [choosePlacement_of_find_none hf]
    obtain ⟨l1, l2, hl, -, -⟩ := bestOverlap_first_max g p
    have hmem : (bestOverlap g.rect g.ttRect g.viewport (candidates p)).place
        ∈ l1 ++ (bestOverlap g.rect g.ttRect g.viewport (candidates p)).place :: l2 := by
      simp
    rw [← hl] at hmem
    exact hmem

theorem candidates_subset {p c q : String} (hc : c ∈ candidates p) (hq : q ∈ candidates c) :
    q ∈ candidates p := by
  rcases mem_candidates.mp hq with h | h
  · exact h ▸ hc
  · exact mem_candidates.mpr (Or.inr h)

/-- Choosing again with the chosen placement as the preferred one gives the same
placement. -/
theorem choosePlacement_idem (g : Layout) {p : String} (hp : p ≠ "") :
    choosePlacement g (choosePlacement g p) = choosePlacement g p := by
  have hmem := choosePlacement_mem g hp
  have hne : choosePlacement g p ≠ "" := candidates_ne_empty hp hmem
  cases hf : (candidates p).find?
      (fun q => fits (computeCoords g.rect g.ttRect q) g.viewport) with
  | some r =>
    have hr : choosePlacement g p = r := choosePlacement_of_find_some hp hf
    rw [hr] at hne ⊢
    have hfit : fits (computeCoords g.rect g.ttRect r) g.viewport = true :=
      (fits_iff _ _).mpr (find_first_fit hf).1
    have hfind : (candidates r).find?
        (fun q => fits (computeCoords g.rect g.ttRect q) g.viewport) = some r := by
      rw [candidates_eq]
      exact List.find?_cons_of_pos _ hfit
    exact choosePlacement_of_find_some hne hfind
  | none =>
    have hnone := List.find?_eq_none.mp hf
    have hf2 : (candidates (choosePlacement g p)).find?
        (fun q => fits (computeCoords g.rect g.ttRect q) g.viewport) = none := by
      refine List.find?_eq_none.mpr ?_
      intro q hq
      exact hnone q (candidates_subset hmem hq)
    obtain ⟨l1, l2, hl, h1, h2⟩ := bestOverlap_first_max g p
    rw [← choosePlacement_of_find_none hf] at hl h1 h2
    have hmax : ∀ q ∈ candidates p, g.area q ≤ g.area (choosePlacement g p) := by
      intro q hq
      rw [hl] at hq
      rcases List.mem_append.mp hq with hq | hq
      · exact le_of_lt (h1 q hq)
      · rcases List.mem_cons.mp hq with rfl | hq
        · exact le_refl _
        · exact h2 q hq
    obtain ⟨m1, m2, hm, hm1, -⟩ := bestOverlap_first_max g (choosePlacement g p)
    rw [← choosePlacement_of_find_none hf2] at hm hm1
    cases m1 with
    | nil =>
      rw [candidates_eq] at hm
      exact (List.cons.inj hm).1.symm
    | cons a m1 =>
      have ha : a = choosePlacement g p := by
        rw [candidates_eq] at hm
        exact (List.cons.inj hm).1.symm
      have hlt := hm1 a (List.mem_cons_self _ _)
      rw [ha] at hlt
      have hle := hmax _ (candidates_subset hmem (choosePlacement_mem g hne))
      exact absurd hlt (not_lt.mpr hle)

/-- A second pass with the same layout returns the state of the first. -/
theorem positionTooltip_idem (g : Layout) (s : State) :
    positionTooltip g (positionTooltip g s) = positionTooltip g s := by
  cases hc : s.currentTrigger with
  | none => simp [positionTooltip, hc]
  | some e =>
    have hne : choosePlacement g (preferredOf s.tooltip) ≠ "" :=
      candidates_ne_empty (preferredOf_ne_empty _) (choosePlacement_mem g (preferredOf_ne_empty _))
    have hidem := choosePlacement_idem g (preferredOf_ne_empty s.tooltip)
    simp only [positionTooltip, hc, preferredOf, orElse, if_neg hne] at hidem ⊢
    simp only [preferredOf, orElse] at hne
    simp only [if_neg hne, hidem]

/-- C20. Under unchanged trigger rectangle, tooltip size, viewport size and scroll offset
(the same layout `g`), `positionTooltip` is idempotent: the second pass, which reads the
placement recorded by the first as its preferred placement, records the same placement
and writes the same coordinates, and indeed leaves the whole state as the first pass
left it; this holds whether some candidate fits or the best-overlap fallback is used. -/
theorem positionTooltip_idempotent (g : Layout) (s : State) :
    (positionTooltip g (positionTooltip g s)).tooltip.datasetPlacement
        = (positionTooltip g s).tooltip.datasetPlacement ∧
      (positionTooltip g (positionTooltip g s)).tooltip.styleLeft
        = (positionTooltip g s).tooltip.styleLeft ∧
      (positionTooltip g (positionTooltip g s)).tooltip.styleTop
        = (positionTooltip g s).tooltip.styleTop ∧
      positionTooltip g (positionTooltip g s) = positionTooltip g s := by
  rw [positionTooltip_idem]
  exact ⟨rfl, rfl, rfl, rfl⟩

/-! ## C14: scroll and resize events before the next frame -/

theorem onWindowEvent_of_active (s : State) (e : ElemId) (hcur : s.currentTrigger = some e)
    (ev : WindowEvent) :
    onWindowEvent s ev = { s with frames := s.frames ++ [.positionTooltip] } := by
  cases ev <;> simp [onWindowEvent, onScroll, onResize, hcur, requestAnimationFrame]

theorem foldl_onWindowEvent_of_active (evs : List WindowEvent) (s : State) (e : ElemId)
    (hcur : s.currentTrigger = some e) :
    evs.foldl onWindowEvent s
      = { s with frames := s.frames ++ List.replicate evs.length .positionTooltip } := by
  induction evs generalizing s with
  | nil => simp
  | cons ev evs ih =>
    rw [List.foldl_cons, onWindowEvent_of_active s e hcur ev,
      ih { s with frames := s.frames ++ [.positionTooltip] } hcur]
    simp [List.replicate_succ, List.append_assoc]

theorem positionTooltip_frames (g : Layout) (s : State) (f : List FrameCallback) :
    positionTooltip g { s with frames := f } = { positionTooltip g s with frames := f } := by
  cases hc : s.currentTrigger <;> simp [positionTooltip, hc]

theorem foldl_runCallback_replicate (g : Layout) (n : Nat) (s : State) :
    (List.replicate (n + 1) FrameCallback.positionTooltip).foldl (runCallback g) s
      = positionTooltip g s := by
  induction n generalizing s with
  | zero => rfl
  | succ n ih =>
    rw [List.replicate_succ, List.foldl_cons, ih]
    exact positionTooltip_idem g s

theorem frames_eq_replicate (l : List FrameCallback) :
    l = List.replicate l.length .positionTooltip := by
  induction l with
  | nil => rfl
  | cons cb l ih =>
    cases cb
    rw [List.length_cons, List.replicate_succ, ← ih]

/-- C14, as the code has it. With the frame scheduler as an explicit queue of pending
callbacks: every scroll or resize event handled while a tooltip is visible appends one
positioning pass to the queue and changes nothing else, so `k` events before the next
frame leave `k` more pending passes than there were; when the frame fires with layout
`g` all of them run, and (a pass being idempotent under one layout) they leave the state
that a single pass leaves. -/
theorem onWindowEvents_pending (g : Layout) (s : State) (e : ElemId)
    (hcur : s.currentTrigger = some e) (evs : List WindowEvent) :
    evs.foldl onWindowEvent s
        = { s with frames := s.frames ++ List.replicate evs.length .positionTooltip } ∧
      (evs.foldl onWindowEvent s).frames.length = s.frames.length + evs.length ∧
      (evs ≠ [] →
        fireFrame g (evs.foldl onWindowEvent s) = { positionTooltip g s with frames := [] }) := by
  have hfold := foldl_onWindowEvent_of_active evs s e hcur
  refine ⟨hfold, ?_, ?_⟩
  · rw [hfold]
    simp
  · intro hne
    rw [hfold]
    unfold fireFrame
    have hlen : (s.frames ++ List.replicate evs.length FrameCallback.positionTooltip).length
        = (s.frames.length + evs.length - 1) + 1 := by
      have : 0 < evs.length := List.length_pos.mpr hne
      simp only [List.length_append, List.length_replicate]
      omega
    have hrep := frames_eq_replicate
      (s.frames ++ List.replicate evs.length FrameCallback.positionTooltip)
    rw [hlen] at hrep
    simp only []
    rw [hrep, foldl_runCallback_replicate]
    exact positionTooltip_frames g s []

/-- Witness for C14 as the code has it: a scroll, a resize and another scroll while
element 0 of the example document is active and no pass is pending. -/
theorem onWindowEvents_pending_witness :
    [WindowEvent.scroll, .resize, .scroll].foldl onWindowEvent exampleSettled
        = { exampleSettled with
            frames := exampleSettled.frames
              ++ List.replicate [WindowEvent.scroll, .resize, .scroll].length .positionTooltip } ∧
      ([WindowEvent.scroll, .resize, .scroll].foldl onWindowEvent exampleSettled).frames.length
        = exampleSettled.frames.length + [WindowEvent.scroll, .resize, .scroll].length ∧
      fireFrame roomyLayout ([WindowEvent.scroll, .resize, .scroll].foldl onWindowEvent
          exampleSettled)
        = { positionTooltip roomyLayout exampleSettled with frames := [] } :=
  match onWindowEvents_pending roomyLayout exampleSettled 0 (by decide)
      [WindowEvent.scroll, .resize, .scroll] with
  | ⟨h1, h2, h3⟩ => ⟨h1, h2, h3 (by decide)⟩

/-- Counterexample to C14 as stated: element 0 of the example document is active and no
pass is pending; after two scroll events two positioning passes are pending, not at most
one. -/
theorem onWindowEvents_pending_counterexample :
    exampleSettled.currentTrigger = some 0 ∧ exampleSettled.frames = [] ∧
      ([WindowEvent.scroll, .scroll].foldl onWindowEvent exampleSettled).frames
        = [.positionTooltip, .positionTooltip] ∧
      ¬ ([WindowEvent.scroll, .scroll].foldl onWindowEvent exampleSettled).frames.length ≤ 1 := by
  decide

/-! ## C15 and C16: `ensureFocusable` -/

theorem lookup_map_set_of_ne (name value m : String) (l : List (String × String))
    (hm : m ≠ name) :
    (l.map (fun kv => if kv.1 = name then (name, value) else kv)).lookup m = l.lookup m := by
  induction l with
  | nil => rfl
  | cons kv l ih =>
    obtain ⟨k, v⟩ := kv
    by_cases hk : k = name
    · subst hk
      have hb : (m == k) = false := by simpa [beq_eq_false_iff_ne] using hm
      simp [List.lookup_cons, hb, ih]
    · by_cases hmk : m = k
      · subst hmk
        simp [List.lookup_cons, hk]
      · have hb : (m == k) = false := by simpa [beq_eq_false_iff_ne] using hmk
        simp [List.lookup_cons, hk, hb, ih]

theorem lookup_append_of_ne (name value m : String) (l : List (String × String))
    (hm : m ≠ name) :
    (l ++ [(name, value)]).lookup m = l.lookup m := by
  induction l with
  | nil =>
    have hb : (m == name) = false := by simpa [beq_eq_false_iff_ne] using hm
    simp [List.lookup_cons, hb]
  | cons kv l ih =>
    obtain ⟨k, v⟩ := kv
    by_cases hmk : m = k
    · subst hmk
      simp [List.lookup_cons]
    · have hb : (m == k) = false := by simpa [beq_eq_false_iff_ne] using hmk
      simp [List.lookup_cons, hb, ih]

theorem getAttribute_setAttribute_of_ne (el : Element) (name value m : String) (hm : m ≠ name) :
    (el.setAttribute name value).getAttribute m = el.getAttribute m := by
  unfold Element.setAttribute
  by_cases h : el.hasAttribute name = true
  · simp only [h, if_true, Element.getAttribute]
    exact lookup_map_set_of_ne name value m el.attrs hm
  · have h' : el.hasAttribute name = false := by simpa using h
    simp only [h', Element.getAttribute]
    exact lookup_append_of_ne name value m el.attrs hm

theorem setAttribute_tagName (el : Element) (name value : String) :
    (el.setAttribute name value).tagName = el.tagName := by
  unfold Element.setAttribute
  split_ifs <;> rfl

theorem ensureFocusable_of_plain (el : Element) (hn : naturallyFocusable el = false)
    (ht : el.hasAttribute "tabindex" = false) :
    el.ensureFocusable = { el with attrs := el.attrs ++ [("tabindex", "0")] } := by
  simp [Element.ensureFocusable, hn, ht, Element.setAttribute]

theorem ensureFocusable_of_focusable (el : Element) (h : keyboardFocusable el = true) :
    el.ensureFocusable = el := by
  unfold keyboardFocusable at h
  unfold Element.ensureFocusable
  rcases Bool.or_eq_true_iff.mp h with h | h <;> simp [h]

theorem ensureFocusable_tagName (el : Element) : el.ensureFocusable.tagName = el.tagName := by
  unfold Element.ensureFocusable
  split_ifs
  · exact setAttribute_tagName _ _ _
  · rfl

theorem ensureFocusable_getAttribute_of_ne (el : Element) (name : String)
    (h : name ≠ "tabindex") : el.ensureFocusable.getAttribute name = el.getAttribute name := by
  unfold Element.ensureFocusable
  split_ifs
  · exact getAttribute_setAttribute_of_ne _ _ _ _ h
  · rfl

theorem ensureFocusable_keyboardFocusable (el : Element) :
    keyboardFocusable el.ensureFocusable = true := by
  by_cases h : keyboardFocusable el = true
  · rw [ensureFocusable_of_focusable el h]; exact h
  · have h' : keyboardFocusable el = false := by simpa using h
    unfold keyboardFocusable at h'
    obtain ⟨hn, ht⟩ := Bool.or_eq_false_iff.mp h'
    have hset : el.ensureFocusable = el.setAttribute "tabindex" "0" := by
      simp [Element.ensureFocusable, hn, ht]
    unfold keyboardFocusable
    rw [hset]
    simp [Element.hasAttribute, getAttribute_setAttribute]

/-- C15. `ensureFocusable` is idempotent: for every element, a second call leaves the
element (tag and attribute list) exactly as the first call left it; the same holds for
the call on any value in any state of the document. -/
theorem ensureFocusable_idempotent (el : Element) (s : State) (n : Node) :
    el.ensureFocusable.ensureFocusable = el.ensureFocusable ∧
      ensureFocusable (ensureFocusable s n) n = ensureFocusable s n := by
  have hel : ∀ x : Element, x.ensureFocusable.ensureFocusable = x.ensureFocusable :=
    fun x => ensureFocusable_of_focusable _ (ensureFocusable_keyboardFocusable x)
  refine ⟨hel el, ?_⟩
  cases n with
  | other => rfl
  | element e =>
    simp only [ensureFocusable, Function.update_same, Function.update_idem, hel]

/-- C16. For every element, `ensureFocusable` appends `tabindex="0"` exactly when the
element is not natively focusable and has no `tabindex` attribute, and otherwise returns
the element unchanged, so an existing `tabindex` is never overwritten; in either case the
tag and every attribute other than `tabindex` stay as they were.  Natively focusable
means: the lower-cased tag is `button`, `input`, `textarea` or `select`, or it is `a`
and the element has an `href` attribute. -/
theorem ensureFocusable_spec (el : Element) :
    (naturallyFocusable el = true ↔
      (toLowerCase el.tagName ∈ ["button", "input", "textarea", "select"] ∨
        (toLowerCase el.tagName = "a" ∧ el.hasAttribute "href" = true))) ∧
    (naturallyFocusable el = false → el.hasAttribute "tabindex" = false →
      el.ensureFocusable.getAttribute "tabindex" = some "0" ∧
      el.ensureFocusable.attrs = el.attrs ++ [("tabindex", "0")]) ∧
    (naturallyFocusable el = true ∨ el.hasAttribute "tabindex" = true →
      el.ensureFocusable = el) ∧
    (∀ name, name ≠ "tabindex" → el.ensureFocusable.getAttribute name = el.getAttribute name) ∧
    el.ensureFocusable.tagName = el.tagName := by
  refine ⟨?_, ?_, ?_, ensureFocusable_getAttribute_of_ne el, ensureFocusable_tagName el⟩
  · unfold naturallyFocusable
    simp only [Bool.and_eq_true, Bool.or_eq_true, bne_iff_ne, ne_eq, List.contains,
      List.elem_eq_mem, decide_eq_true_eq, List.mem_cons, List.mem_singleton, List.not_mem_nil,
      or_false]
    constructor
    · rintro ⟨h1, h2⟩
      by_cases ha : toLowerCase el.tagName = "a"
      · rcases h2 with h2 | h2
        · exact absurd ha h2
        · exact Or.inr ⟨ha, h2⟩
      · rcases h1 with h1 | h1
        · exact absurd h1 ha
        · exact Or.inl h1
    · rintro (h | ⟨ha, hh⟩)
      · refine ⟨Or.inr h, Or.inl ?_⟩
        rcases h with h | h | h | h <;> rw [h] <;> decide
      · exact ⟨Or.inl ha, Or.inr hh⟩
  · intro hn ht
    rw [ensureFocusable_of_plain el hn ht]
    exact ⟨lookup_append_new "tabindex" "0" el.attrs ht, rfl⟩
  · intro h
    refine ensureFocusable_of_focusable el ?_
    unfold keyboardFocusable
    rcases h with h | h <;> simp [h]

/-- Witness for C16: a `span` trigger gets `tabindex="0"`; a `button` trigger and a
`div` with `tabindex="-1"` are returned unchanged. -/
theorem ensureFocusable_spec_witness :
    (exampleSpan.ensureFocusable.getAttribute "tabindex" = some "0" ∧
      exampleSpan.ensureFocusable.attrs = exampleSpan.attrs ++ [("tabindex", "0")]) ∧
    exampleButton.ensureFocusable = exampleButton ∧
    exampleTabbed.ensureFocusable = exampleTabbed ∧
    exampleTabbed.ensureFocusable.getAttribute "tabindex" = some "-1" :=
  ⟨(ensureFocusable_spec exampleSpan).2.1 (by decide) (by decide),
    (ensureFocusable_spec exampleButton).2.2.1 (Or.inl (by decide)),
    (ensureFocusable_spec exampleTabbed).2.2.1 (Or.inr (by decide)),
    by decide⟩

/-! ## C17: elements inserted later -/

theorem ensureFocusable_dom_tooltipAttr (s : State) (n : Node) (x : ElemId) :
    ((ensureFocusable s n).dom x).hasAttribute TOOLTIP_ATTR
      = (s.dom x).hasAttribute TOOLTIP_ATTR := by
  cases n with
  | other => rfl
  | element e =>
    by_cases hx : x = e
    · subst hx
      simp only [ensureFocusable, Function.update_same, Element.hasAttribute]
      rw [ensureFocusable_getAttribute_of_ne _ _ (by decide)]
    · simp only [ensureFocusable, Function.update_noteq hx]

theorem ensureFocusable_dom_mono (s : State) (n : Node) (x : ElemId)
    (h : keyboardFocusable (s.dom x) = true) :
    keyboardFocusable ((ensureFocusable s n).dom x) = true := by
  cases n with
  | other => exact h
  | element e =>
    by_cases hx : x = e
    · subst hx
      simp only [ensureFocusable, Function.update_same]
      exact ensureFocusable_keyboardFocusable _
    · simpa only [ensureFocusable, Function.update_noteq hx] using h

theorem ensureFocusable_dom_self (s : State) (e : ElemId) :
    keyboardFocusable ((ensureFocusable s (.element e)).dom e) = true := by
  simp only [ensureFocusable, Function.update_same]
  exact ensureFocusable_keyboardFocusable _

/-- A loop whose body keeps the `data-tooltip` attributes and never takes focusability
away keeps both over the whole list. -/
theorem foldl_keeps {α : Type} (f : State → α → State)
    (h1 : ∀ s a x, ((f s a).dom x).hasAttribute TOOLTIP_ATTR
      = (s.dom x).hasAttribute TOOLTIP_ATTR)
    (h2 : ∀ s a x, keyboardFocusable (s.dom x) = true →
      keyboardFocusable ((f s a).dom x) = true)
    (l : List α) (s : State) (x : ElemId) :
    ((l.foldl f s).dom x).hasAttribute TOOLTIP_ATTR = (s.dom x).hasAttribute TOOLTIP_ATTR ∧
      (keyboardFocusable (s.dom x) = true →
        keyboardFocusable ((l.foldl f s).dom x) = true) := by
  induction l generalizing s with
  | nil => exact ⟨rfl, id⟩
  | cons a l ih =>
    obtain ⟨ih1, ih2⟩ := ih (f s a)
    rw [List.foldl_cons]
    exact ⟨ih1.trans (h1 s a x), fun h => ih2 (h2 s a x h)⟩

/-- If, in addition, the body makes a trigger `e` focusable when it handles `a`, then `e`
is focusable after a loop over a list that contains `a`. -/
theorem foldl_establishes {α : Type} (f : State → α → State)
    (h1 : ∀ s a x, ((f s a).dom x).hasAttribute TOOLTIP_ATTR
      = (s.dom x).hasAttribute TOOLTIP_ATTR)
    (h2 : ∀ s a x, keyboardFocusable (s.dom x) = true →
      keyboardFocusable ((f s a).dom x) = true)
    (a : α) (e : ElemId)
    (hest : ∀ s, (s.dom e).hasAttribute TOOLTIP_ATTR = true →
      keyboardFocusable ((f s a).dom e) = true)
    (l : List α) (ha : a ∈ l) (s : State) (ht : (s.dom e).hasAttribute TOOLTIP_ATTR = true) :
    keyboardFocusable ((l.foldl f s).dom e) = true := by
  induction l generalizing s with
  | nil => cases ha
  | cons b l ih =>
    rw [List.foldl_cons]
    rcases List.mem_cons.mp ha with rfl | hmem
    · exact (foldl_keeps f h1 h2 l (f s a) e).2 (hest s ht)
    · exact ih hmem (f s b) (by rw [h1]; exact ht)

theorem makeAll_tooltipAttr (doc : Document) (root : Option ElemId) (s : State) (x : ElemId) :
    ((makeAllTooltipTriggersFocusable doc root s).dom x).hasAttribute TOOLTIP_ATTR
      = (s.dom x).hasAttribute TOOLTIP_ATTR :=
  (foldl_keeps ensureFocusable ensureFocusable_dom_tooltipAttr ensureFocusable_dom_mono
    _ s x).1

theorem makeAll_mono (doc : Document) (root : Option ElemId) (s : State) (x : ElemId)
    (h : keyboardFocusable (s.dom x) = true) :
    keyboardFocusable ((makeAllTooltipTriggersFocusable doc root s).dom x) = true :=
  (foldl_keeps ensureFocusable ensureFocusable_dom_tooltipAttr ensureFocusable_dom_mono
    _ s x).2 h

theorem makeAll_descendant (doc : Document) (r e : ElemId) (s : State)
    (he : e ∈ doc.descendants r) (ht : (s.dom e).hasAttribute TOOLTIP_ATTR = true) :
    keyboardFocusable ((makeAllTooltipTriggersFocusable doc (some r) s).dom e) = true := by
  have hmem : Node.element e ∈ (querySelectorAll doc s (some r)).map Node.element := by
    refine List.mem_map.mpr ⟨e, ?_, rfl⟩
    exact List.mem_filter.mpr ⟨he, ht⟩
  exact foldl_establishes ensureFocusable ensureFocusable_dom_tooltipAttr
    ensureFocusable_dom_mono (.element e) e (fun s' _ => ensureFocusable_dom_self s' e)
    _ hmem s ht

theorem onAddedNode_tooltipAttr (doc : Document) (s : State) (n : Node) (x : ElemId) :
    ((onAddedNode doc s n).dom x).hasAttribute TOOLTIP_ATTR
      = (s.dom x).hasAttribute TOOLTIP_ATTR := by
  cases n with
  | other => rfl
  | element r =>
    simp only [onAddedNode]
    rw [makeAll_tooltipAttr]
    split_ifs
    · exact ensureFocusable_dom_tooltipAttr s _ x
    · rfl

theorem onAddedNode_mono (doc : Document) (s : State) (n : Node) (x : ElemId)
    (h : keyboardFocusable (s.dom x) = true) :
    keyboardFocusable ((onAddedNode doc s n).dom x) = true := by
  cases n with
  | other => exact h
  | element r =>
    simp only [onAddedNode]
    refine makeAll_mono doc _ _ x ?_
    split_ifs
    · exact ensureFocusable_dom_mono s _ x h
    · exact h

theorem onAddedNode_establishes (doc : Document) (r e : ElemId)
    (he : e = r ∨ e ∈ doc.descendants r) (s : State)
    (ht : (s.dom e).hasAttribute TOOLTIP_ATTR = true) :
    keyboardFocusable ((onAddedNode doc s (.element r)).dom e) = true := by
  simp only [onAddedNode]
  rcases he with rfl | he
  · refine makeAll_mono doc _ _ e ?_
    rw [if_pos ht]
    exact ensureFocusable_dom_self s e
  · refine makeAll_descendant doc r e _ he ?_
    split_ifs
    · rw [ensureFocusable_dom_tooltipAttr]; exact ht
    · exact ht

theorem onMutation_tooltipAttr (doc : Document) (s : State) (m : MutationRecord) (x : ElemId) :
    ((onMutation doc s m).dom x).hasAttribute TOOLTIP_ATTR
      = (s.dom x).hasAttribute TOOLTIP_ATTR := by
  unfold onMutation
  split_ifs
  · exact (foldl_keeps (onAddedNode doc) (onAddedNode_tooltipAttr doc) (onAddedNode_mono doc)
      _ s x).1
  · rfl

theorem onMutation_mono (doc : Document) (s : State) (m : MutationRecord) (x : ElemId)
    (h : keyboardFocusable (s.dom x) = true) :
    keyboardFocusable ((onMutation doc s m).dom x) = true := by
  unfold onMutation
  split_ifs
  · exact (foldl_keeps (onAddedNode doc) (onAddedNode_tooltipAttr doc) (onAddedNode_mono doc)
      _ s x).2 h
  · exact h

theorem onMutation_establishes (doc : Document) (m : MutationRecord) (r e : ElemId)
    (htype : m.type = "childList") (hr : Node.element r ∈ m.addedNodes)
    (he : e = r ∨ e ∈ doc.descendants r) (s : State)
    (ht : (s.dom e).hasAttribute TOOLTIP_ATTR = true) :
    keyboardFocusable ((onMutation doc s m).dom e) = true := by
  have hlen : m.addedNodes.length ≠ 0 := by
    intro h0
    rw [List.length_eq_zero] at h0
    rw [h0] at hr
    cases hr
  have hcond : (decide (m.type = "childList") && m.addedNodes.length != 0) = true := by
    simp [htype, hlen]
  unfold onMutation
  rw [if_pos hcond]
  exact foldl_establishes (onAddedNode doc) (onAddedNode_tooltipAttr doc) (onAddedNode_mono doc)
    (.element r) e (onAddedNode_establishes doc r e he) _ hr s ht

/-- C17. For every element node `n` inserted into the document and reported to the
mutation handler (it is among the added nodes of a `childList` record of the batch),
after the handler has run every element of the inserted subtree that carries
`data-tooltip`, the inserted node itself included, is keyboard-focusable: it is natively
focusable or has a `tabindex` attribute (and it still carries `data-tooltip`). -/
theorem onMutations_focusable (doc : Document) (s : State) (mutations : List MutationRecord)
    (m : MutationRecord) (n e : ElemId)
    (hm : m ∈ mutations) (htype : m.type = "childList")
    (hn : Node.element n ∈ m.addedNodes)
    (he : e = n ∨ e ∈ doc.descendants n)
    (ht : (s.dom e).hasAttribute TOOLTIP_ATTR = true) :
    (naturallyFocusable ((onMutations doc mutations s).dom e) = true ∨
        ((onMutations doc mutations s).dom e).hasAttribute "tabindex" = true) ∧
      ((onMutations doc mutations s).dom e).hasAttribute TOOLTIP_ATTR = true := by
  have hfoc : keyboardFocusable ((onMutations doc mutations s).dom e) = true :=
    foldl_establishes (onMutation doc) (onMutation_tooltipAttr doc) (onMutation_mono doc)
      m e (onMutation_establishes doc m n e htype hn he) mutations hm s ht
  refine ⟨?_, ?_⟩
  · unfold keyboardFocusable at hfoc
    exact Bool.or_eq_true_iff.mp hfoc
  · have := (foldl_keeps (onMutation doc) (onMutation_tooltipAttr doc) (onMutation_mono doc)
      mutations s e).1
    unfold onMutations
    rw [this]
    exact ht

/-- Witness for C17 (scenario 4): a panel (element 5) with a `span` trigger (element 6)
inside is inserted and reported in one `childList` record; afterwards the `span` is
focusable. -/
theorem onMutations_focusable_witness :
    (naturallyFocusable ((onMutations insertedDoc
          [{ type := "childList", addedNodes := [.element 5] }] insertedState).dom 6) = true ∨
        ((onMutations insertedDoc
          [{ type := "childList", addedNodes := [.element 5] }] insertedState).dom 6).hasAttribute
            "tabindex" = true) ∧
      ((onMutations insertedDoc
          [{ type := "childList", addedNodes := [.element 5] }] insertedState).dom 6).hasAttribute
            TOOLTIP_ATTR = true :=
  onMutations_focusable insertedDoc insertedState
    [{ type := "childList", addedNodes := [.element 5] }]
    { type := "childList", addedNodes := [.element 5] } 5 6
    (List.mem_singleton.mpr rfl) rfl (List.mem_singleton.mpr rfl) (Or.inr (by decide))
    (by decide)

/-! ## C18: gap and centring in `computeCoords` -/

theorem mathRound_abs_sub_le (x : ℚ) : |(mathRound x : ℚ) - x| ≤ 1 / 2 := by
  unfold mathRound
  have h1 : ((⌊x + 1 / 2⌋ : ℤ) : ℚ) ≤ x + 1 / 2 := Int.floor_le _
  have h2 : x + 1 / 2 < ((⌊x + 1 / 2⌋ : ℤ) : ℚ) + 1 := Int.lt_floor_add_one _
  rw [abs_le]
  constructor <;> linarith

/-- Rounding a double expression `d` that is within `slack` of the exact value `x`, and
adding the offset `o`, lands within `1/2 + slack` of `x + o`. -/
theorem mathRound_near {d x o slack : ℚ} (h : |d - x| ≤ slack) :
    |(mathRound d : ℚ) + o - (x + o)| ≤ 1 / 2 + slack := by
  have hr := mathRound_abs_sub_le d
  have e : (mathRound d : ℚ) + o - (x + o) = ((mathRound d : ℚ) - d) + (d - x) := by ring
  rw [e]
  exact le_trans (abs_add _ _) (by linarith)

/-- C18, as the code has it. For each placement `computeCoords` puts the tooltip at a
gap of 8 px from the trigger edge on the main axis (`top`: tooltip bottom = trigger top
- 8; `bottom`: tooltip top = trigger bottom + 8; `left`: tooltip right = trigger left -
8; `right`: tooltip left = trigger right + 8) and centres it on the trigger along the
cross axis, up to the rounding of `left` and `top` to the nearest integer and the
rounding error of the double arithmetic before it: each relation holds within
`1/2 + 2^-51 * m + 2^-1072`, `m` the sum of the magnitudes of the operands.  The
rectangle's width and height are the tooltip's measured size. -/
theorem computeCoords_gap_and_centre (rect ttRect : DOMRect) :
    (|((computeCoords rect ttRect "top").top : ℚ) + (computeCoords rect ttRect "top").h
          - (num rect.top - 8)|
        ≤ 1 / 2 + roundingSlack (|num rect.top| + |num ttRect.height| + 8) ∧
      |((computeCoords rect ttRect "top").left : ℚ) + (computeCoords rect ttRect "top").w / 2
          - (num rect.left + num rect.width / 2)|
        ≤ 1 / 2 + roundingSlack (|num rect.left| + |num rect.width| + |num ttRect.width|)) ∧
    (|((computeCoords rect ttRect "bottom").top : ℚ) - (rect.bottom + 8)|
        ≤ 1 / 2 + roundingSlack (|rect.bottom| + 8) ∧
      |((computeCoords rect ttRect "bottom").left : ℚ)
          + (computeCoords rect ttRect "bottom").w / 2 - (num rect.left + num rect.width / 2)|
        ≤ 1 / 2 + roundingSlack (|num rect.left| + |num rect.width| + |num ttRect.width|)) ∧
    (|((computeCoords rect ttRect "left").left : ℚ) + (computeCoords rect ttRect "left").w
          - (num rect.left - 8)|
        ≤ 1 / 2 + roundingSlack (|num rect.left| + |num ttRect.width| + 8) ∧
      |((computeCoords rect ttRect "left").top : ℚ) + (computeCoords rect ttRect "left").h / 2
          - (num rect.top + num rect.height / 2)|
        ≤ 1 / 2 + roundingSlack (|num rect.top| + |num rect.height| + |num ttRect.height|)) ∧
    (|((computeCoords rect ttRect "right").left : ℚ) - (rect.right + 8)|
        ≤ 1 / 2 + roundingSlack (|rect.right| + 8) ∧
      |((computeCoords rect ttRect "right").top : ℚ)
          + (computeCoords rect ttRect "right").h / 2 - (num rect.top + num rect.height / 2)|
        ≤ 1 / 2 + roundingSlack (|num rect.top| + |num rect.height| + |num ttRect.height|)) ∧
    (∀ p ∈ placementNames, (computeCoords rect ttRect p).w = num ttRect.width ∧
      (computeCoords rect ttRect p).h = num ttRect.height) := by
  have h8 : |(8 : ℚ)| = 8 := by norm_num
  have ht : computeCoords rect ttRect "top"
      = { left := mathRound
            (dadd (num rect.left) (ddiv (dsub (num rect.width) (num ttRect.width)) 2))
          top := mathRound (dsub (dsub (num rect.top) (num ttRect.height)) 8)
          w := num ttRect.width, h := num ttRect.height } := by
    simp [computeCoords, gap]
  have hb : computeCoords rect ttRect "bottom"
      = { left := mathRound
            (dadd (num rect.left) (ddiv (dsub (num rect.width) (num ttRect.width)) 2))
          top := mathRound (dadd rect.bottom 8)
          w := num ttRect.width, h := num ttRect.height } := by
    simp [computeCoords, gap]
  have hl : computeCoords rect ttRect "left"
      = { left := mathRound (dsub (dsub (num rect.left) (num ttRect.width)) 8)
          top := mathRound
            (dadd (num rect.top) (ddiv (dsub (num rect.height) (num ttRect.height)) 2))
          w := num ttRect.width, h := num ttRect.height } := by
    simp [computeCoords, gap]
  have hr : computeCoords rect ttRect "right"
      = { left := mathRound (dadd rect.right 8)
          top := mathRound
            (dadd (num rect.top) (ddiv (dsub (num rect.height) (num ttRect.height)) 2))
          w := num ttRect.width, h := num ttRect.height } := by
    simp [computeCoords, gap]
  -- the double expressions against their exact values
  have m1 := dsub_dsub_err (num rect.top) (num ttRect.height) 8
  have m2 := dsub_dsub_err (num rect.left) (num ttRect.width) 8
  have m3 := dadd_err rect.bottom 8
  have m4 := dadd_err rect.right 8
  have cx := centre_err (num rect.left) (num rect.width) (num ttRect.width)
  have cy := centre_err (num rect.top) (num rect.height) (num ttRect.height)
  rw [h8] at m1 m2 m3 m4
  rw [ht, hb, hl, hr]
  refine ⟨⟨?_, ?_⟩, ⟨?_, ?_⟩, ⟨?_, ?_⟩, ⟨?_, ?_⟩, ?_⟩
  · have := mathRound_near (o := num ttRect.height) m1
    have e : num rect.top - num ttRect.height - 8 + num ttRect.height = num rect.top - 8 := by
      ring
    rw [e] at this
    exact this
  · have := mathRound_near (o := num ttRect.width / 2) cx
    have e : num rect.left + (num rect.width - num ttRect.width) / 2 + num ttRect.width / 2
        = num rect.left + num rect.width / 2 := by ring
    rw [e] at this
    exact this
  · have := mathRound_near (o := 0) m3
    simpa using this
  · have := mathRound_near (o := num ttRect.width / 2) cx
    have e : num rect.left + (num rect.width - num ttRect.width) / 2 + num ttRect.width / 2
        = num rect.left + num rect.width / 2 := by ring
    rw [e] at this
    exact this
  · have := mathRound_near (o := num ttRect.width) m2
    have e : num rect.left - num ttRect.width - 8 + num ttRect.width = num rect.left - 8 := by
      ring
    rw [e] at this
    exact this
  · have := mathRound_near (o := num ttRect.height / 2) cy
    have e : num rect.top + (num rect.height - num ttRect.height) / 2 + num ttRect.height / 2
        = num rect.top + num rect.height / 2 := by ring
    rw [e] at this
    exact this
  · have := mathRound_near (o := 0) m4
    simpa using this
  · have := mathRound_near (o := num ttRect.height / 2) cy
    have e : num rect.top + (num rect.height - num ttRect.height) / 2 + num ttRect.height / 2
        = num rect.top + num rect.height / 2 := by ring
    rw [e] at this
    exact this
  · intro p _
    exact computeCoords_size rect ttRect p

/-- Counterexample to C18 as stated: with the trigger top at the double 38.4 and the
tooltip height the double 10.9, the double subtractions give exactly 19.5 and
`computeCoords` returns `top = 20` for placement `top`, while the nearest integer to the
exact value `38.4 - 10.9 - 8` is 19; the tooltip bottom is then more than half a pixel
from the trigger top minus 8. -/
theorem computeCoords_gap_counterexample :
    (computeCoords fractionalRect fractionalTip "top").top = 20 ∧
      mathRound (num fractionalRect.top - num fractionalTip.height - 8) = 19 ∧
      ¬ |((computeCoords fractionalRect fractionalTip "top").top : ℚ)
            + (computeCoords fractionalRect fractionalTip "top").h
            - (num fractionalRect.top - 8)| ≤ 1 / 2 := by
  decide!

/-! ## C19: pointer-leave and focus-out -/

/-- C19, as the code has it. For every state Visible(e), the `pointerleave` and
`focusout` listeners compare the related target with the nearest trigger of the event
target, not with the active trigger: the state is unchanged when the event target lies in
no trigger, and when the related target is a node that is that nearest trigger or lies
inside it (an element, or a text node whose parent element is the trigger or inside it),
in particular when the nearest trigger is `e` and the pointer or focus moved to `e` or
into `e`; in every other case `hideTooltip` runs. -/
theorem onLeave_spec (doc : Document) (s : State) (e : ElemId) (ev : UIEvent)
    (hcur : s.currentTrigger = some e) :
    (closestIfElement doc s ev.target = none →
      onPointerLeave doc ev s = s ∧ onFocusOut doc ev s = s) ∧
    (closestIfElement doc s ev.target = some e →
      containsRelated doc e ev.relatedTarget = true →
      (onPointerLeave doc ev s = s ∧ onFocusOut doc ev s = s) ∧
        (onPointerLeave doc ev s).currentTrigger = some e ∧
        (onFocusOut doc ev s).currentTrigger = some e) ∧
    (∀ f, closestIfElement doc s ev.target = some f →
      containsRelated doc f ev.relatedTarget = true →
      onPointerLeave doc ev s = s ∧ onFocusOut doc ev s = s) ∧
    (∀ f, closestIfElement doc s ev.target = some f →
      containsRelated doc f ev.relatedTarget = false →
      onPointerLeave doc ev s = hideTooltip s ∧ onFocusOut doc ev s = hideTooltip s ∧
        (onPointerLeave doc ev s).currentTrigger = none ∧
        (onFocusOut doc ev s).currentTrigger = none) ∧
    (∀ f r, (containsRelated doc f (.element r) = true ↔ f = r ∨ f ∈ doc.ancestors r) ∧
      containsRelated doc f (.node (some r)) = containsRelated doc f (.element r) ∧
      containsRelated doc f (.node none) = false ∧
      containsRelated doc f .notNode = false) := by
  refine ⟨?_, ?_, ?_, ?_, ?_⟩
  · intro h
    simp [onPointerLeave, onFocusOut, h]
  · intro h hrel
    have h1 : onPointerLeave doc ev s = s := by simp [onPointerLeave, h, hrel]
    have h2 : onFocusOut doc ev s = s := by simp [onFocusOut, h, hrel]
    rw [h1, h2]
    exact ⟨⟨rfl, rfl⟩, hcur, hcur⟩
  · intro f h hrel
    simp [onPointerLeave, onFocusOut, h, hrel]
  · intro f h hrel
    have h1 : onPointerLeave doc ev s = hideTooltip s := by simp [onPointerLeave, h, hrel]
    have h2 : onFocusOut doc ev s = hideTooltip s := by simp [onFocusOut, h, hrel]
    rw [h1, h2]
    exact ⟨rfl, rfl, hideTooltip_currentTrigger s, hideTooltip_currentTrigger s⟩
  · intro f r
    refine ⟨?_, rfl, rfl, rfl⟩
    simp [containsRelated]

/-- Witness for C19 as the code has it, on the example document with element 0 active:
leaving element 3 (in no trigger) changes nothing; leaving element 4, a child of element
0, towards a text node of element 0 changes nothing; leaving element 1 towards element 4
hides the tooltip. -/
theorem onLeave_spec_witness :
    (onPointerLeave exampleDoc { target := .element 3, relatedTarget := .notNode } exampleVisible
        = exampleVisible ∧
      onFocusOut exampleDoc { target := .element 3, relatedTarget := .notNode } exampleVisible
        = exampleVisible) ∧
    ((onPointerLeave exampleDoc { target := .element 4, relatedTarget := .node (some 0) }
          exampleVisible = exampleVisible ∧
        onFocusOut exampleDoc { target := .element 4, relatedTarget := .node (some 0) }
          exampleVisible = exampleVisible) ∧
      (onPointerLeave exampleDoc { target := .element 4, relatedTarget := .node (some 0) }
        exampleVisible).currentTrigger = some 0 ∧
      (onFocusOut exampleDoc { target := .element 4, relatedTarget := .node (some 0) }
        exampleVisible).currentTrigger = some 0) ∧
    (onPointerLeave exampleDoc { target := .element 1, relatedTarget := .element 4 }
        exampleVisible = hideTooltip exampleVisible ∧
      onFocusOut exampleDoc { target := .element 1, relatedTarget := .element 4 }
        exampleVisible = hideTooltip exampleVisible ∧
      (onPointerLeave exampleDoc { target := .element 1, relatedTarget := .element 4 }
        exampleVisible).currentTrigger = none ∧
      (onFocusOut exampleDoc { target := .element 1, relatedTarget := .element 4 }
        exampleVisible).currentTrigger = none) :=
  ⟨(onLeave_spec exampleDoc exampleVisible 0 { target := .element 3, relatedTarget := .notNode }
      (by decide)).1 (by decide),
    (onLeave_spec exampleDoc exampleVisible 0
      { target := .element 4, relatedTarget := .node (some 0) } (by decide)).2.1
      (by decide) (by decide),
    (onLeave_spec exampleDoc exampleVisible 0
      { target := .element 1, relatedTarget := .element 4 } (by decide)).2.2.2.1 1
      (by decide) (by decide)⟩

/-- Counterexample to C19 as stated: on the example document element 0 is the active
trigger and element 4 is its child; a pointer-leave or focus-out event on element 1
whose related target is element 4, a descendant of the active trigger, hides the
tooltip. -/
theorem onLeave_counterexample :
    exampleVisible.currentTrigger = some 0 ∧
      containsRelated exampleDoc 0 (.element 4) = true ∧
      (onPointerLeave exampleDoc { target := .element 1, relatedTarget := .element 4 }
        exampleVisible).currentTrigger ≠ some 0 ∧
      (onFocusOut exampleDoc { target := .element 1, relatedTarget := .element 4 }
        exampleVisible).currentTrigger ≠ some 0 ∧
      (onPointerLeave exampleDoc { target := .element 1, relatedTarget := .element 4 }
        exampleVisible).tooltip.ariaHidden = "true" := by
  decide

end Tooltip
